import Mathlib

/-!
# GpuAwareRecordInput: a verification development

Shallow embedding of `tensorflow/user_ops/gpu_aware_record_input_op.cc`:
the op registration (`REGISTER_OP("GpuAwareRecordInput")`), the kernel
constructor `GpuAwareRecordInputOp::GpuAwareRecordInputOp` and the batch
loop `GpuAwareRecordInputOp::Compute`.

Conventions of the embedding.

* `int64` values are `Int`; the `int` loop counter of `Compute` is an `Int`
  that is wrapped into the 32-bit two's complement range after `++i`.
* A `float` is carried as its IEEE-754 binary32 bit pattern; the kernel only
  copies it.
* `Status` is either `OK` or an error value; `OP_REQUIRES_OK` records the
  error in the context and returns from the enclosing function.
* The yielder behind `yielder_` is an abstract state `σ` together with the
  function `YieldOne : σ → Except ε String × σ` (the record written through
  the out-pointer on success, the error otherwise, and the yielder's next
  state).  `gpu_record_yielder.h` is not among the sources; the components
  the specification describes for it are modelled from its words in the
  second half of the definitions.
* Loops that need not terminate take a fuel argument; `none` means that the
  fuel ran out before the loop returned.
-/

namespace tensorflow

/-! ## Host runtime values -/

/-- Outcome of a fallible host call: `Status::OK()` or an error. -/
inductive Status (ε : Type) where
  | OK : Status ε
  | error (e : ε) : Status ε
deriving DecidableEq, Repr

/-- The test `s.ok()`. -/
def Status.ok {ε : Type} : Status ε → Bool
  | .OK => true
  | .error _ => false

/-- A tensor of `DT_STRING`: its shape and its flat (row-major) contents. -/
structure Tensor where
  shape : List Int
  flat : List String
deriving DecidableEq, Repr

/-- The declaration `Tensor out(DT_STRING, {dim})`: one dimension of `dim`
default-constructed (empty) strings.  For a negative `dim`, which the
tensor library is not meant to be given, the embedding has no elements. -/
def Tensor.ofDim (dim : Int) : Tensor :=
  { shape := [dim], flat := List.replicate dim.toNat "" }

/-- The kernel context of one `Compute` call: the status recorded so far
and the output slots (`none` while a slot is unset). -/
structure OpKernelContext (ε : Type) where
  status : Status ε
  outputs : List (Option Tensor)
deriving DecidableEq, Repr

/-- The context the runtime hands to a `Compute` call of this op: status
`OK` and the single output `records` unset. -/
def OpKernelContext.fresh (ε : Type) : OpKernelContext ε :=
  { status := .OK, outputs := [none] }

/-- The call `ctx->set_output(index, t)`. -/
def OpKernelContext.set_output {ε : Type} (ctx : OpKernelContext ε) (index : Nat)
    (t : Tensor) : OpKernelContext ε :=
  { ctx with outputs := ctx.outputs.set index (some t) }

/-- The failure branch of `OP_REQUIRES_OK(ctx, s)`: the error is recorded in
the context (the caller then returns). -/
def OpKernelContext.CtxFailure {ε : Type} (ctx : OpKernelContext ε) (e : ε) :
    OpKernelContext ε :=
  { ctx with status := .error e }

/-! ## The kernel object and `Compute` -/

/-- The private members of `GpuAwareRecordInputOp`: `batch_size_` and the
state of the yielder owned through `yielder_`. -/
structure GpuAwareRecordInputOp (σ : Type) where
  batch_size_ : Int
  yielder_ : σ
deriving DecidableEq, Repr

/-- Largest value of a 32-bit signed `int`, 2^31 - 1. -/
def INT_MAX : Int := 2147483647

/-- Reduction of an integer into the 32-bit two's complement range
[-2^31, 2^31): what `++i` leaves in an `int` when overflow wraps. -/
def wrapInt32 (x : Int) : Int := (x + 2147483648) % 4294967296 - 2147483648

/-- The assignment through `&t_out(i)`: slot `i` of the flat view receives
`r`.  An index outside the view leaves it unchanged. -/
def setSlot (t_out : List String) (i : Int) (r : String) : List String :=
  if 0 ≤ i then t_out.set i.toNat r else t_out

/-- The variables of the `for` loop of `Compute`: the counter `i`, the flat
view `t_out` of the tensor being filled, and the yielder's state. -/
structure LoopState (σ : Type) where
  i : Int
  t_out : List String
  y : σ
deriving DecidableEq, Repr

/-- What one pass through the loop head and body does. -/
inductive LoopStep (σ ε : Type) where
  /-- The body ran, `YieldOne` returned OK, `++i` was executed. -/
  | next (s : LoopState σ) : LoopStep σ ε
  /-- The condition `i < batch_size_` was false. -/
  | exit (s : LoopState σ) : LoopStep σ ε
  /-- The call to `YieldOne` failed and `OP_REQUIRES_OK` returned. -/
  | fail (e : ε) (s : LoopState σ) : LoopStep σ ε

/-- One iteration of `for (int i = 0; i < batch_size_; ++i)
OP_REQUIRES_OK(ctx, yielder_->YieldOne(&t_out(i)));` from the loop head.
The comparison is made in `int64`, the increment in `int`. -/
def loopStep {σ ε : Type} (YieldOne : σ → Except ε String × σ) (batch_size_ : Int)
    (s : LoopState σ) : LoopStep σ ε :=
  if s.i < batch_size_ then
    match YieldOne s.y with
    | (.error e, y) => .fail e { s with y := y }
    | (.ok r, y) => .next { i := wrapInt32 (s.i + 1), t_out := setSlot s.t_out s.i r, y := y }
  else .exit s

/-- The loop of `Compute` run from state `s`: the status with which it is
left and the final loop variables, or `none` when `fuel` passes through the
loop head do not suffice. -/
def runLoop {σ ε : Type} (YieldOne : σ → Except ε String × σ) (batch_size_ : Int) :
    Nat → LoopState σ → Option (Status ε × LoopState σ)
  | 0, _ => none
  | fuel + 1, s =>
    match loopStep YieldOne batch_size_ s with
    | .next s1 => runLoop YieldOne batch_size_ fuel s1
    | .exit s1 => some (.OK, s1)
    | .fail e s1 => some (.error e, s1)

/-- The values the counter `i` holds at the successive loop heads reached
within `fuel` passes, starting from state `s`. -/
def counterTrace {σ ε : Type} (YieldOne : σ → Except ε String × σ) (batch_size_ : Int) :
    Nat → LoopState σ → List Int
  | 0, _ => []
  | fuel + 1, s =>
    s.i :: (match loopStep YieldOne batch_size_ s with
      | .next s1 => counterTrace YieldOne batch_size_ fuel s1
      | .exit _ => []
      | .fail _ _ => [])

/-- The method `GpuAwareRecordInputOp::Compute`: allocate `out`, fill it by
`batch_size_` calls of `YieldOne`, and set it as output 0; a failing
`YieldOne` records its status in the context and returns at once.  The
result is the context after the call and the kernel object after the call,
or `none` when the loop did not return within `fuel` passes. -/
def Compute {σ ε : Type} (YieldOne : σ → Except ε String × σ) (fuel : Nat)
    (self : GpuAwareRecordInputOp σ) (ctx : OpKernelContext ε) :
    Option (OpKernelContext ε × GpuAwareRecordInputOp σ) :=
  let out := Tensor.ofDim self.batch_size_
  match runLoop YieldOne self.batch_size_ fuel { i := 0, t_out := out.flat, y := self.yielder_ } with
  | none => none
  | some (.error e, s) => some (ctx.CtxFailure e, { self with yielder_ := s.y })
  | some (.OK, s) =>
    some (ctx.set_output 0 { out with flat := s.t_out }, { self with yielder_ := s.y })

/-- Successive `Compute` calls on one kernel object, each with a fresh
context: the contexts the calls leave, in call order, and the kernel object
after the last call. -/
def ComputeMany {σ ε : Type} (YieldOne : σ → Except ε String × σ) (fuel : Nat) :
    Nat → GpuAwareRecordInputOp σ → Option (List (OpKernelContext ε) × GpuAwareRecordInputOp σ)
  | 0, self => some ([], self)
  | m + 1, self =>
    match Compute YieldOne fuel self (OpKernelContext.fresh ε) with
    | none => none
    | some (ctx, self1) =>
      match ComputeMany YieldOne fuel m self1 with
      | none => none
      | some (ctxs, self2) => some (ctx :: ctxs, self2)

/-! ## Observing the yielder's stream -/

/-- State of the yielder after `k` consecutive `YieldOne` calls from `s`. -/
def stateAfter {σ ε : Type} (YieldOne : σ → Except ε String × σ) (s : σ) : Nat → σ
  | 0 => s
  | k + 1 => stateAfter YieldOne (YieldOne s).2 k

/-- Result of the `(k+1)`-th of consecutive `YieldOne` calls from `s`. -/
def nthYield {σ ε : Type} (YieldOne : σ → Except ε String × σ) (s : σ) (k : Nat) :
    Except ε String :=
  (YieldOne (stateAfter YieldOne s k)).1

/-- A yielder instrumented with a call counter: it behaves as `YieldOne` on
the first component and adds one to the second on every call. -/
def counting {σ ε : Type} (YieldOne : σ → Except ε String × σ) :
    σ × Nat → Except ε String × (σ × Nat) :=
  fun p => ((YieldOne p.1).1, ((YieldOne p.1).2, p.2 + 1))

/-- The counter of the loop after `j` executions of `++i` from the value
`i`. -/
def iterCounter (i : Int) : Nat → Int
  | 0 => i
  | j + 1 => iterCounter (wrapInt32 (i + 1)) j

/-- The records handed out by the first `k` consecutive `YieldOne` calls
from `s`, in call order, up to the first call that fails. -/
def yieldedRecords {σ ε : Type} (YieldOne : σ → Except ε String × σ) : σ → Nat → List String
  | _, 0 => []
  | s, k + 1 =>
    match (YieldOne s).1 with
    | .ok r => r :: yieldedRecords YieldOne (YieldOne s).2 k
    | .error _ => []

/-- The batch a `Compute` call left in output 0 of its context (empty when
the output is unset). -/
def outputRecords {ε : Type} (ctx : OpKernelContext ε) : List String :=
  match ctx.outputs[0]? with
  | some (some t) => t.flat
  | _ => []

/-- A yielder over a finite list of records: `YieldOne` hands out the head,
and fails with `e` once the list is empty. -/
def listYielder {ε : Type} (e : ε) : List String → Except ε String × List String
  | [] => (.error e, [])
  | r :: rs => (.ok r, rs)


/-! ## Registration and construction -/

/-- A C++ `float`, carried as its IEEE-754 binary32 bit pattern; `bits = 0`
is the value `0`.  The kernel only copies such values. -/
structure float where
  bits : Nat
deriving DecidableEq, Repr

/-- The value of an attribute of a node. -/
inductive AttrValue where
  | s (v : String) : AttrValue
  | i (v : Int) : AttrValue
  | f (v : float) : AttrValue
deriving DecidableEq, Repr

/-- The attribute types used by the registration: `string`, `int`, `float`. -/
inductive AttrType where
  | string : AttrType
  | int : AttrType
  | float : AttrType
deriving DecidableEq, Repr

/-- One `.Attr("name: type [= default]")` line of a registration. -/
structure AttrDef where
  name : String
  type : AttrType
  default_value : Option AttrValue
deriving DecidableEq, Repr

/-- What `REGISTER_OP` records: the op name, its outputs, its attributes in
declaration order, and whether `SetIsStateful` was called. -/
structure OpDef where
  name : String
  output_arg : List (String × String)
  attr : List AttrDef
  is_stateful : Bool
deriving DecidableEq, Repr

/-- The registration `REGISTER_OP("GpuAwareRecordInput")`. -/
def GpuAwareRecordInput : OpDef :=
  { name := "GpuAwareRecordInput"
    output_arg := [("records", "string")]
    attr :=
      [ { name := "file_pattern", type := .string, default_value := none },
        { name := "file_random_seed", type := .int, default_value := some (.i 301) },
        { name := "file_shuffle_shift_ratio", type := .float, default_value := some (.f ⟨0⟩) },
        { name := "file_buffer_size", type := .int, default_value := some (.i 10000) },
        { name := "file_parallelism", type := .int, default_value := some (.i 16) },
        { name := "batch_size", type := .int, default_value := some (.i 32) } ]
    is_stateful := true }

/-- Why the construction of a kernel failed: an attribute is absent, an
attribute has another type than the one asked for, or the construction of
the yielder reported `e`. -/
inductive ConstructionError (ε : Type) where
  | missing_attr (name : String) : ConstructionError ε
  | attr_type_mismatch (name : String) : ConstructionError ε
  | yielder (e : ε) : ConstructionError ε
deriving DecidableEq, Repr

/-- The construction context: the attributes of the node being built. -/
structure OpKernelConstruction where
  attrs : List (String × AttrValue)
deriving DecidableEq, Repr

/-- Modelled from the spec: the host runtime's defaulting of attributes
(framework code, not among the sources).  For every attribute of the
registration, in order: the value the node supplies, else the declared
default, else (a required attribute, §6) an error. -/
def resolveAttrs {ε : Type} (node : List (String × AttrValue)) :
    List AttrDef → Except (ConstructionError ε) (List (String × AttrValue))
  | [] => .ok []
  | d :: ds =>
    match (match node.lookup d.name with
           | some v => some v
           | none => d.default_value) with
    | none => .error (.missing_attr d.name)
    | some v =>
      match resolveAttrs node ds with
      | .error e => .error e
      | .ok rest => .ok ((d.name, v) :: rest)

/-- The call `ctx->GetAttr(name, &value)` for a `string` value. -/
def GetAttr_string {ε : Type} (ctx : OpKernelConstruction) (name : String) :
    Except (ConstructionError ε) String :=
  match ctx.attrs.lookup name with
  | some (.s v) => .ok v
  | some _ => .error (.attr_type_mismatch name)
  | none => .error (.missing_attr name)

/-- The call `ctx->GetAttr(name, &value)` for an `int64` value. -/
def GetAttr_int64 {ε : Type} (ctx : OpKernelConstruction) (name : String) :
    Except (ConstructionError ε) Int :=
  match ctx.attrs.lookup name with
  | some (.i v) => .ok v
  | some _ => .error (.attr_type_mismatch name)
  | none => .error (.missing_attr name)

/-- The call `ctx->GetAttr(name, &value)` for a `float` value. -/
def GetAttr_float {ε : Type} (ctx : OpKernelConstruction) (name : String) :
    Except (ConstructionError ε) float :=
  match ctx.attrs.lookup name with
  | some (.f v) => .ok v
  | some _ => .error (.attr_type_mismatch name)
  | none => .error (.missing_attr name)

/-- Modelled from the spec: `RecordYielder::Options` (declared in
`gpu_record_yielder.h`, not among the sources), with the five fields the
kernel constructor assigns; §3 lists the same five. -/
structure Options where
  file_pattern : String
  seed : Int
  bufsize : Int
  file_shuffle_shift_ratio : float
  parallelism : Int
deriving DecidableEq, Repr

/-- The constructor `GpuAwareRecordInputOp::GpuAwareRecordInputOp`.  Each
`GETATTR` reads one attribute and returns from the constructor when the read
fails; then the options are filled field by field, the yielder is built from
them by `RecordYielder_new` (the constructor of `RecordYielder`, a
parameter), and `batch_size_` is set.  A construction that recorded an error
yields no kernel. -/
def GpuAwareRecordInputOp.new {σ ε : Type} (RecordYielder_new : Options → Except ε σ)
    (ctx : OpKernelConstruction) : Except (ConstructionError ε) (GpuAwareRecordInputOp σ) :=
  match GetAttr_string ctx "file_pattern" with
  | .error e => .error e
  | .ok file_pattern =>
  match GetAttr_int64 ctx "file_random_seed" with
  | .error e => .error e
  | .ok file_random_seed =>
  match GetAttr_float ctx "file_shuffle_shift_ratio" with
  | .error e => .error e
  | .ok file_shuffle_shift_ratio =>
  match GetAttr_int64 ctx "file_buffer_size" with
  | .error e => .error e
  | .ok file_buffer_size =>
  match GetAttr_int64 ctx "file_parallelism" with
  | .error e => .error e
  | .ok file_parallelism =>
  match GetAttr_int64 ctx "batch_size" with
  | .error e => .error e
  | .ok batch_size =>
    let yopts : Options :=
      { file_pattern := file_pattern
        seed := file_random_seed
        bufsize := file_buffer_size
        file_shuffle_shift_ratio := file_shuffle_shift_ratio
        parallelism := file_parallelism }
    match RecordYielder_new yopts with
    | .error e => .error (.yielder e)
    | .ok y => .ok { batch_size_ := batch_size, yielder_ := y }

/-- Modelled from the spec: the host layer that builds the kernel of a node
of op `GpuAwareRecordInput` (framework code, not among the sources; §6):
the node's attributes are completed with the registration's defaults and
handed to the kernel constructor. -/
def CreateOpKernel {σ ε : Type} (RecordYielder_new : Options → Except ε σ)
    (node : List (String × AttrValue)) : Except (ConstructionError ε) (GpuAwareRecordInputOp σ) :=
  match resolveAttrs node GpuAwareRecordInput.attr with
  | .error e => .error e
  | .ok attrs => GpuAwareRecordInputOp.new RecordYielder_new { attrs := attrs }


/-! ## The yielder's components, from the specification

`gpu_record_yielder.h` is not among the sources.  The definitions below
follow the words of the specification (§3, §4, §7); where it describes
concurrent callers, a suspended caller is kept as explicit state. -/

/-- Modelled from the spec: the error taxonomy of §7 (`RecordYielder` is
not among the sources). -/
inductive YielderError where
  | ConfigError : YielderError
  | NoMatchError : YielderError
  | ShardOpenError : YielderError
  | ShardReadError : YielderError
  | ClosedError : YielderError
  | ExhaustedError : YielderError
deriving DecidableEq, Repr

/-- Modelled from the spec: the `ShuffleBuffer` of §3 and §4.5, which is not
among the sources.  `buffer_size` is the capacity, `records` the records
held, and `suspended` the records of the `Push` callers that found the
buffer at capacity and are waiting, in arrival order. -/
structure ShuffleBuffer where
  buffer_size : Nat
  records : List String
  suspended : List String
deriving DecidableEq, Repr

/-- Modelled from the spec: the buffer a yielder starts with (§4.5; not
among the sources): nothing held, nobody waiting. -/
def ShuffleBuffer.empty (buffer_size : Nat) : ShuffleBuffer :=
  { buffer_size := buffer_size, records := [], suspended := [] }

/-- Modelled from the spec: `Push(record)` of §4.5 (not among the
sources): below capacity the record is appended; at capacity the caller is
suspended and its record is not inserted. -/
def ShuffleBuffer.Push (b : ShuffleBuffer) (record : String) : ShuffleBuffer :=
  if b.records.length < b.buffer_size then
    { b with records := b.records ++ [record] }
  else
    { b with suspended := b.suspended ++ [record] }

/-- Modelled from the spec: `Pop()` of §4.5 (not among the sources).  On an
empty buffer the caller is suspended (`none`, nothing changes).  Otherwise
the record at the position picked by `choice` (the random draw, reduced
modulo the number of records held) is removed and returned; the room made
lets the longest-suspended `Push` caller, if any, insert its record. -/
def ShuffleBuffer.Pop (b : ShuffleBuffer) (choice : Nat) : Option String × ShuffleBuffer :=
  match b.records[choice % b.records.length]? with
  | none => (none, b)
  | some r =>
    let rest := b.records.eraseIdx (choice % b.records.length)
    match b.suspended with
    | [] => (some r, { b with records := rest })
    | w :: ws =>
      if rest.length < b.buffer_size then
        (some r, { b with records := rest ++ [w], suspended := ws })
      else
        (some r, { b with records := rest })

/-- An operation applied to a `ShuffleBuffer`. -/
inductive BufferOp where
  | Push (record : String) : BufferOp
  | Pop (choice : Nat) : BufferOp
deriving DecidableEq, Repr

/-- The buffer after one operation. -/
def ShuffleBuffer.apply (b : ShuffleBuffer) : BufferOp → ShuffleBuffer
  | .Push record => b.Push record
  | .Pop choice => (b.Pop choice).2

/-- The buffer after a sequence of operations, applied left to right. -/
def ShuffleBuffer.run (b : ShuffleBuffer) (ops : List BufferOp) : ShuffleBuffer :=
  ops.foldl ShuffleBuffer.apply b

/-- Exchange of the entries at positions `i` and `j` of a list (no change
when a position is out of range). -/
def swapAt (l : List String) (i j : Nat) : List String :=
  match l[i]?, l[j]? with
  | some a, some b => (l.set i b).set j a
  | _, _ => l

/-- Modelled from the spec: the pseudo-random generator of §4.2 (the
`EpochPlanner` is not among the sources): an engine with a state.  The
specification does not say where the engine comes from, so `OrderFor` is
modelled for an engine found in any state, for instance the one earlier
draws have left. -/
structure Generator where
  state : Nat
deriving DecidableEq, Repr

/-- Modelled from the spec: seeding the generator (§4.2; not among the
sources): the engine's state becomes the seed value. -/
def Generator.seed (gen : Generator) (value : Nat) : Generator :=
  { gen with state := value }

/-- Modelled from the spec: the Fisher–Yates shuffle of §4.2 (the
`EpochPlanner` is not among the sources).  Positions `i, i-1, ..., 1` are
each exchanged with a position drawn from `0 .. i`.  A draw is made by
`next`, which maps the generator's state to the number drawn and the state
after the draw; the result carries the generator as the last draw left it. -/
def fisherYates (next : Nat → Nat × Nat) : Nat → Generator → List String →
    List String × Generator
  | 0, gen, l => (l, gen)
  | i + 1, gen, l =>
    fisherYates next i { gen with state := (next gen.state).2 }
      (swapAt l (i + 1) ((next gen.state).1 % (i + 2)))

/-- Rotation of a list to the left by `k` positions, `k` taken modulo the
length. -/
def rotateLeft (l : List String) (k : Nat) : List String :=
  l.drop (k % l.length) ++ l.take (k % l.length)

/-- Modelled from the spec: the `EpochPlanner` of §4.2 (not among the
sources): the shard list, the seed and the shift ratio it was built with. -/
structure EpochPlanner where
  shards : List String
  seed : Int
  shuffle_shift_ratio : float
deriving DecidableEq, Repr

/-- Modelled from the spec: `EpochPlanner.OrderFor(epoch)` of §4.2 (not
among the sources), as a call made while the planner's generator is `gen`.
The generator is seeded with `mix seed epoch`, a copy of the shard list is
shuffled by Fisher–Yates with its draws, and the result is rotated left by
the shift amount, modulo the length.  The call returns the order and the
generator as it leaves it.  The specification fixes neither the mixing
function, nor the generator's step, nor the shift amount as a number (§3
takes the floor of `ratio * len`, §4.2 rounds it and leaves epoch 0
unshifted); they are the parameters `mix`, `next` and `shiftOf`, the last a
function of the ratio, the list length and the epoch. -/
def EpochPlanner.OrderFor (mix : Int → Nat → Nat) (next : Nat → Nat × Nat)
    (shiftOf : float → Nat → Nat → Nat) (p : EpochPlanner) (gen : Generator) (epoch : Nat) :
    List String × Generator :=
  let seeded := gen.seed (mix p.seed epoch)
  let shuffled := fisherYates next (p.shards.length - 1) seeded p.shards
  (rotateLeft shuffled.1 (shiftOf p.shuffle_shift_ratio p.shards.length epoch), shuffled.2)

/-- Modelled from the spec: the planner's generator after `OrderFor` has
been called for each epoch of `history` in turn, starting with the
generator `gen` (§4.2; not among the sources). -/
def EpochPlanner.generatorAfter (mix : Int → Nat → Nat) (next : Nat → Nat × Nat)
    (shiftOf : float → Nat → Nat → Nat) (p : EpochPlanner) (gen : Generator)
    (history : List Nat) : Generator :=
  history.foldl (fun gen1 epoch => (p.OrderFor mix next shiftOf gen1 epoch).2) gen

/-- The algorithm of `OrderFor` with the seeding step left out: it draws
from the generator as it finds it.  It is the contrast for the determinism
of `OrderFor`: its order changes with the generator's state. -/
def orderWithoutSeeding (next : Nat → Nat × Nat) (shiftOf : float → Nat → Nat → Nat)
    (p : EpochPlanner) (gen : Generator) (epoch : Nat) : List String × Generator :=
  let shuffled := fisherYates next (p.shards.length - 1) gen p.shards
  (rotateLeft shuffled.1 (shiftOf p.shuffle_shift_ratio p.shards.length epoch), shuffled.2)

/-- Modelled from the spec: the states of the `RecordYielder` facade, §4.6
(not among the sources). -/
inductive YielderState where
  | Uninitialized : YielderState
  | Running : YielderState
  | Closing : YielderState
  | Closed : YielderState
deriving DecidableEq, Repr

/-- Modelled from the spec: the `RecordYielder` of §3 and §4.6 (not among
the sources): its options, the planner over the shard list, its state, the
epoch counter, the shuffle buffer, and the number of worker tasks running. -/
structure RecordYielder where
  opts : Options
  planner : EpochPlanner
  state : YielderState
  epoch : Nat
  buffer : ShuffleBuffer
  workers : Nat
deriving DecidableEq, Repr

/-- Modelled from the spec: construction of a `RecordYielder` (§3, §4.1,
§7; not among the sources).  Bad options (non-positive buffer size or
parallelism, empty pattern) are a `ConfigError`; a pattern that `ListShards`
(the `ShardLister`) expands to no shard is a `NoMatchError`; otherwise the
yielder is `Running` at epoch 0 with an empty buffer of capacity `bufsize`
and `parallelism` workers. -/
def RecordYielder.new (ListShards : String → List String) (opts : Options) :
    Except YielderError RecordYielder :=
  if opts.bufsize ≤ 0 ∨ opts.parallelism ≤ 0 ∨ opts.file_pattern = "" then
    .error .ConfigError
  else
    match ListShards opts.file_pattern with
    | [] => .error .NoMatchError
    | shard :: shards =>
      .ok { opts := opts
            planner := { shards := shard :: shards, seed := opts.seed,
                         shuffle_shift_ratio := opts.file_shuffle_shift_ratio }
            state := .Running
            epoch := 0
            buffer := ShuffleBuffer.empty opts.bufsize.toNat
            workers := opts.parallelism.toNat }

/-- Modelled from the spec: `Close()` of §4.6 and §8 (not among the
sources).  From `Running` the workers are signalled (`Closing`), waited for,
and the yielder is `Closed`; a call in `Closing` completes the shutdown; a
call on a `Closed` (or never started) yielder changes nothing.  No case
reports an error. -/
def RecordYielder.Close (y : RecordYielder) : Except YielderError Unit × RecordYielder :=
  match y.state with
  | .Running => (.ok (), { y with state := .Closed, workers := 0 })
  | .Closing => (.ok (), { y with state := .Closed, workers := 0 })
  | .Closed => (.ok (), y)
  | .Uninitialized => (.ok (), y)

/-- Modelled from the spec: `YieldOne()` of §4.6 (not among the sources).
It is valid only in `Running`, where it pops a record from the shuffle
buffer (`none` when the pop suspends the caller on an empty buffer); in any
other state it fails with `ClosedError` and returns no record. -/
def RecordYielder.YieldOne (y : RecordYielder) (choice : Nat) :
    Option (Except YielderError String × RecordYielder) :=
  match y.state with
  | .Running =>
    match y.buffer.Pop choice with
    | (none, _) => none
    | (some r, b) => some (.ok r, { y with buffer := b })
  | _ => some (.error .ClosedError, y)

/-- A call made on a yielder by its owner. -/
inductive YielderCall where
  | YieldOne (choice : Nat) : YielderCall
  | Close : YielderCall
deriving DecidableEq, Repr

/-- What a call returned: an error, a record, or nothing (`Close`). -/
def RecordYielder.call (y : RecordYielder) :
    YielderCall → Option (Except YielderError (Option String) × RecordYielder)
  | .YieldOne choice =>
    match y.YieldOne choice with
    | none => none
    | some (.ok r, y1) => some (.ok (some r), y1)
    | some (.error e, y1) => some (.error e, y1)
  | .Close =>
    match y.Close with
    | (.ok (), y1) => some (.ok none, y1)
    | (.error e, y1) => some (.error e, y1)

/-- The results of a sequence of calls, in call order, and the yielder
after them; `none` when a call suspends its caller for good. -/
def RecordYielder.calls : RecordYielder → List YielderCall →
    Option (List (Except YielderError (Option String)) × RecordYielder)
  | y, [] => some ([], y)
  | y, c :: cs =>
    match y.call c with
    | none => none
    | some (r, y1) =>
      match RecordYielder.calls y1 cs with
      | none => none
      | some (rs, y2) => some (r :: rs, y2)

/-! ## The loop counter -/

theorem wrapInt32_small (x : Int) (h1 : -2147483648 ≤ x) (h2 : x ≤ INT_MAX) : wrapInt32 x = x := by
  unfold INT_MAX at h2
  unfold wrapInt32
  omega

theorem wrapInt32_le (x : Int) : wrapInt32 x ≤ INT_MAX := by
  unfold INT_MAX wrapInt32
  omega

theorem iterCounter_small : ∀ (j : Nat) (i : Int), 0 ≤ i → i + j ≤ INT_MAX → iterCounter i j = i + j := by
  intro j
  induction j with
  | zero => intro i _ _; simp [iterCounter]
  | succ j ih =>
    intro i h0 h1
    have hw : wrapInt32 (i + 1) = i + 1 := by
      apply wrapInt32_small
      · omega
      · push_cast at h1; omega
    rw [iterCounter, hw, ih (i + 1) (by omega) (by push_cast at h1; omega)]
    push_cast
    omega

theorem iterCounter_le : ∀ (j : Nat) (i : Int), i ≤ INT_MAX → iterCounter i j ≤ INT_MAX := by
  intro j
  induction j with
  | zero => intro i h; simpa [iterCounter] using h
  | succ j ih =>
    intro i _
    rw [iterCounter]
    exact ih _ (wrapInt32_le _)

section
variable {σ ε : Type} (YieldOne : σ → Except ε String × σ) (b : Int)

theorem nthYield_zero (s : σ) : nthYield YieldOne s 0 = (YieldOne s).1 := rfl

theorem nthYield_succ (s : σ) (j : Nat) :
    nthYield YieldOne s (j + 1) = nthYield YieldOne (YieldOne s).2 j := rfl

theorem runLoop_advance : ∀ (k : Nat) (s : LoopState σ),
    (∀ j, j < k → iterCounter s.i j < b) →
    (∀ j, j < k → ∃ r, nthYield YieldOne s.y j = .ok r) →
    ∃ t, ∀ fuel, runLoop YieldOne b (k + fuel) s
      = runLoop YieldOne b fuel { i := iterCounter s.i k, t_out := t, y := stateAfter YieldOne s.y k } := by
  intro k
  induction k with
  | zero =>
    intro s _ _
    exact ⟨s.t_out, fun fuel => by simp [iterCounter, stateAfter]⟩
  | succ k ih =>
    intro s hc hy
    have hc0 : s.i < b := hc 0 (Nat.succ_pos k)
    obtain ⟨r, hr⟩ := hy 0 (Nat.succ_pos k)
    rw [nthYield_zero] at hr
    obtain ⟨t, ht⟩ := ih { i := wrapInt32 (s.i + 1), t_out := setSlot s.t_out s.i r, y := (YieldOne s.y).2 }
      (fun j hj => hc (j + 1) (Nat.succ_lt_succ hj))
      (fun j hj => hy (j + 1) (Nat.succ_lt_succ hj))
    refine ⟨t, fun fuel => ?_⟩
    have hstep : loopStep YieldOne b s
        = .next { i := wrapInt32 (s.i + 1), t_out := setSlot s.t_out s.i r, y := (YieldOne s.y).2 } := by
      unfold loopStep
      rw [if_pos hc0]
      cases hyy : YieldOne s.y with
      | mk res y1 =>
        rw [hyy] at hr
        simp only at hr
        subst hr
        rfl
    have : k + 1 + fuel = (k + fuel) + 1 := by omega
    rw [this, runLoop, hstep]
    exact ht fuel


theorem loopStep_ok (s : LoopState σ) (r : String) (hc : s.i < b)
    (hr : (YieldOne s.y).1 = .ok r) :
    loopStep YieldOne b s
      = .next { i := wrapInt32 (s.i + 1), t_out := setSlot s.t_out s.i r, y := (YieldOne s.y).2 } := by
  unfold loopStep
  rw [if_pos hc]
  cases hyy : YieldOne s.y with
  | mk res y1 =>
    rw [hyy] at hr
    simp only at hr
    subst hr
    rfl

theorem loopStep_error (s : LoopState σ) (e : ε) (hc : s.i < b)
    (hr : (YieldOne s.y).1 = .error e) :
    loopStep YieldOne b s = .fail e { s with y := (YieldOne s.y).2 } := by
  unfold loopStep
  rw [if_pos hc]
  cases hyy : YieldOne s.y with
  | mk res y1 =>
    rw [hyy] at hr
    simp only at hr
    subst hr
    rfl

theorem loopStep_exit (s : LoopState σ) (hc : ¬ s.i < b) :
    loopStep YieldOne b s = .exit s := by
  unfold loopStep
  rw [if_neg hc]

theorem runLoop_fill : ∀ (k a : Nat) (t : List String) (y : σ),
    (a : Int) + k ≤ INT_MAX → (a : Int) + k ≤ b →
    (∀ j, j < k → ∃ r, nthYield YieldOne y j = .ok r) →
    ∃ t1 : List String, t1.length = t.length ∧
      (∀ idx, idx < a → t1[idx]? = t[idx]?) ∧
      (∀ j, j < k → a + j < t.length → ∃ r, nthYield YieldOne y j = .ok r ∧ t1[a + j]? = some r) ∧
      ∀ fuel, runLoop YieldOne b (k + fuel) { i := a, t_out := t, y := y }
        = runLoop YieldOne b fuel { i := (a : Int) + k, t_out := t1, y := stateAfter YieldOne y k } := by
  intro k
  induction k with
  | zero =>
    intro a t y _ _ _
    exact ⟨t, rfl, fun _ _ => rfl, fun j hj => absurd hj (Nat.not_lt_zero j),
      fun fuel => by simp [stateAfter]⟩
  | succ k ih =>
    intro a t y hmax hb hy
    obtain ⟨r, hr⟩ := hy 0 (Nat.succ_pos k)
    have hw : wrapInt32 ((a : Int) + 1) = ((a + 1 : Nat) : Int) := by
      rw [wrapInt32_small] <;> push_cast at * <;> omega
    have hstep := loopStep_ok YieldOne b { i := a, t_out := t, y := y } r
      (by show (a : Int) < b; push_cast at hb; omega) hr
    simp only [hw] at hstep
    have hset : setSlot t (a : Int) r = t.set a r := by
      simp [setSlot]
    rw [hset] at hstep
    obtain ⟨t1, hlen, hpre, hrec, hrun⟩ := ih (a + 1) (t.set a r) (YieldOne y).2
      (by push_cast at *; omega) (by push_cast at *; omega)
      (fun j hj => hy (j + 1) (Nat.succ_lt_succ hj))
    refine ⟨t1, by simpa using hlen, ?_, ?_, ?_⟩
    · intro idx hidx
      rw [hpre idx (by omega), List.getElem?_set_ne (by omega)]
    · intro j hj hlt
      cases j with
      | zero =>
        refine ⟨r, hr, ?_⟩
        have := hpre a (by omega)
        rw [Nat.add_zero, this, List.getElem?_set_self (by simpa using hlt)]
      | succ j =>
        obtain ⟨r1, hr1, hget⟩ := hrec j (by omega) (by simp; omega)
        refine ⟨r1, hr1, ?_⟩
        have : a + (j + 1) = a + 1 + j := by omega
        rw [this]; exact hget
    · intro fuel
      have : k + 1 + fuel = (k + fuel) + 1 := by omega
      rw [this, runLoop, hstep]
      show runLoop YieldOne b (k + fuel) _ = _
      rw [hrun fuel]
      have hi : ((a + 1 : Nat) : Int) + k = (a : Int) + ((k + 1 : Nat) : Int) := by
        push_cast; omega
      rw [hi]
      rfl

theorem runLoop_inv : ∀ (fuel : Nat) (s : LoopState σ) (st : Status ε) (s1 : LoopState σ),
    runLoop YieldOne b fuel s = some (st, s1) →
    ∃ k, k < fuel ∧ (∀ j, j < k → iterCounter s.i j < b) ∧
      (∀ j, j < k → ∃ r, nthYield YieldOne s.y j = .ok r) ∧
      s1.i = iterCounter s.i k ∧
      ((st = .OK ∧ ¬ s1.i < b ∧ s1.y = stateAfter YieldOne s.y k) ∨
       (∃ e, st = .error e ∧ s1.i < b ∧ nthYield YieldOne s.y k = .error e ∧
          s1.y = stateAfter YieldOne s.y (k + 1))) := by
  intro fuel
  induction fuel with
  | zero => intro s st s1 h; simp [runLoop] at h
  | succ fuel ih =>
    intro s st s1 h
    by_cases hc : s.i < b
    · cases hres : (YieldOne s.y).1 with
      | error e =>
        rw [runLoop, loopStep_error YieldOne b s e hc hres] at h
        simp only [Option.some.injEq, Prod.mk.injEq] at h
        obtain ⟨h1, h2⟩ := h
        subst h1 h2
        exact ⟨0, Nat.succ_pos _, fun j hj => absurd hj (Nat.not_lt_zero j),
          fun j hj => absurd hj (Nat.not_lt_zero j), rfl,
          Or.inr ⟨e, rfl, hc, hres, rfl⟩⟩
      | ok r =>
        rw [runLoop, loopStep_ok YieldOne b s r hc hres] at h
        obtain ⟨k, hk, hcs, hys, hi, hfin⟩ := ih _ st s1 h
        refine ⟨k + 1, Nat.succ_lt_succ hk, ?_, ?_, hi, hfin⟩
        · intro j hj
          cases j with
          | zero => exact hc
          | succ j => exact hcs j (by omega)
        · intro j hj
          cases j with
          | zero => exact ⟨r, hres⟩
          | succ j => exact hys j (by omega)
    · rw [runLoop, loopStep_exit YieldOne b s hc] at h
      simp only [Option.some.injEq, Prod.mk.injEq] at h
      obtain ⟨h1, h2⟩ := h
      subst h1 h2
      exact ⟨0, Nat.succ_pos _, fun j hj => absurd hj (Nat.not_lt_zero j),
        fun j hj => absurd hj (Nat.not_lt_zero j), rfl, Or.inl ⟨rfl, hc, rfl⟩⟩

theorem stateAfter_counting : ∀ (k : Nat) (s : σ) (c : Nat),
    stateAfter (counting YieldOne) (s, c) k = (stateAfter YieldOne s k, c + k) := by
  intro k
  induction k with
  | zero => intro s c; rfl
  | succ k ih =>
    intro s c
    rw [stateAfter, stateAfter]
    show stateAfter (counting YieldOne) ((YieldOne s).2, c + 1) k = _
    rw [ih]
    congr 1
    omega

theorem nthYield_counting (k : Nat) (s : σ) (c : Nat) :
    nthYield (counting YieldOne) (s, c) k = nthYield YieldOne s k := by
  unfold nthYield
  rw [stateAfter_counting]
  rfl


theorem stateAfter_add : ∀ (a : Nat) (s : σ) (k : Nat),
    stateAfter YieldOne (stateAfter YieldOne s a) k = stateAfter YieldOne s (a + k) := by
  intro a
  induction a with
  | zero => intro s k; simp [stateAfter]
  | succ a ih =>
    intro s k
    have : a + 1 + k = (a + k) + 1 := by omega
    rw [this]
    exact ih (YieldOne s).2 k

theorem nthYield_add (a : Nat) (s : σ) (k : Nat) :
    nthYield YieldOne (stateAfter YieldOne s a) k = nthYield YieldOne s (a + k) := by
  unfold nthYield
  rw [stateAfter_add]

theorem yieldedRecords_spec : ∀ (k : Nat) (s : σ),
    (∀ i, i < k → ∃ r, nthYield YieldOne s i = .ok r) →
    (yieldedRecords YieldOne s k).length = k ∧
      ∀ i, i < k → ∃ r, nthYield YieldOne s i = .ok r ∧ (yieldedRecords YieldOne s k)[i]? = some r := by
  intro k
  induction k with
  | zero => intro s _; exact ⟨rfl, fun i hi => absurd hi (Nat.not_lt_zero i)⟩
  | succ k ih =>
    intro s hy
    obtain ⟨r, hr⟩ := hy 0 (Nat.succ_pos k)
    obtain ⟨hlen, hget⟩ := ih (YieldOne s).2 (fun i hi => hy (i + 1) (Nat.succ_lt_succ hi))
    have hr1 : (YieldOne s).1 = .ok r := hr
    have hunf : yieldedRecords YieldOne s (k + 1) = r :: yieldedRecords YieldOne (YieldOne s).2 k := by
      rw [yieldedRecords, hr1]
    rw [hunf]
    refine ⟨by simp [hlen], ?_⟩
    intro i hi
    cases i with
    | zero => exact ⟨r, hr, by simp⟩
    | succ i =>
      obtain ⟨r1, h1, h2⟩ := hget i (by omega)
      exact ⟨r1, h1, by simpa using h2⟩

theorem yieldedRecords_unique (k : Nat) (s : σ) (l : List String) (hlen : l.length = k)
    (hget : ∀ i, i < k → ∃ r, nthYield YieldOne s i = .ok r ∧ l[i]? = some r) :
    l = yieldedRecords YieldOne s k := by
  obtain ⟨hlen1, hget1⟩ := yieldedRecords_spec YieldOne k s
    (fun i hi => (hget i hi).imp fun _ h => h.1)
  apply List.ext_getElem?
  intro i
  by_cases hi : i < k
  · obtain ⟨r, hr, hl⟩ := hget i hi
    obtain ⟨r1, hr1, hl1⟩ := hget1 i hi
    rw [hr] at hr1
    cases hr1
    rw [hl, hl1]
  · rw [List.getElem?_eq_none (by omega), List.getElem?_eq_none (by omega)]

theorem yieldedRecords_add : ∀ (a : Nat) (s : σ) (k : Nat),
    (∀ i, i < a → ∃ r, nthYield YieldOne s i = .ok r) →
    yieldedRecords YieldOne s (a + k)
      = yieldedRecords YieldOne s a ++ yieldedRecords YieldOne (stateAfter YieldOne s a) k := by
  intro a
  induction a with
  | zero => intro s k _; simp [yieldedRecords, stateAfter]
  | succ a ih =>
    intro s k hy
    obtain ⟨r, hr⟩ := hy 0 (Nat.succ_pos a)
    have hr1 : (YieldOne s).1 = .ok r := hr
    have : a + 1 + k = (a + k) + 1 := by omega
    rw [this, yieldedRecords, yieldedRecords, hr1]
    simp only [List.cons_append, List.cons.injEq, true_and]
    exact ih (YieldOne s).2 k (fun i hi => hy (i + 1) (Nat.succ_lt_succ hi))

/-! ## `Compute` as a whole -/

theorem Compute_ok (n : Nat) (hmax : (n : Int) ≤ INT_MAX) (s : σ)
    (hy : ∀ i, i < n → ∃ r, nthYield YieldOne s i = .ok r)
    (fuel : Nat) (hfuel : n < fuel) (ctx : OpKernelContext ε) :
    Compute YieldOne fuel { batch_size_ := n, yielder_ := s } ctx
      = some (ctx.set_output 0 { shape := [(n : Int)], flat := yieldedRecords YieldOne s n },
              { batch_size_ := n, yielder_ := stateAfter YieldOne s n }) := by
  obtain ⟨t1, hlen, _, hrec, hrun⟩ := runLoop_fill YieldOne (n : Int) n 0 (List.replicate n "") s
    (by simpa using hmax) (by simp) hy
  obtain ⟨f, rfl⟩ : ∃ f, fuel = n + (f + 1) := ⟨fuel - n - 1, by omega⟩
  have ht1 : t1 = yieldedRecords YieldOne s n := by
    apply yieldedRecords_unique YieldOne n s t1 (by simpa using hlen)
    intro i hi
    have := hrec i hi (by simpa using hi)
    simpa using this
  have hfin : runLoop YieldOne (n : Int) (n + (f + 1))
      { i := ((0 : Nat) : Int), t_out := List.replicate n "", y := s }
      = some (.OK, { i := ((0 : Nat) : Int) + n, t_out := t1, y := stateAfter YieldOne s n }) := by
    rw [hrun (f + 1), runLoop, loopStep_exit]
    simp
  unfold Compute
  simp only [Tensor.ofDim, Int.toNat_ofNat]
  have h0 : ((0 : Nat) : Int) = 0 := rfl
  rw [h0] at hfin
  rw [hfin, ht1]

theorem counter_lt (n : Int) (k : Nat) (hk : (k : Int) < n) :
    ∀ j, j < k + 1 → iterCounter 0 j < n := by
  intro j hj
  by_cases hn : n ≤ INT_MAX
  · rw [iterCounter_small j 0 (le_refl 0) (by omega)]
    omega
  · have := iterCounter_le j 0 (by unfold INT_MAX; omega)
    omega

theorem Compute_fail (n : Int) (k : Nat) (hk : (k : Int) < n) (s : σ) (e : ε)
    (hy : ∀ j, j < k → ∃ r, nthYield YieldOne s j = .ok r)
    (he : nthYield YieldOne s k = .error e)
    (fuel : Nat) (hfuel : k < fuel) (ctx : OpKernelContext ε) :
    Compute YieldOne fuel { batch_size_ := n, yielder_ := s } ctx
      = some (ctx.CtxFailure e, { batch_size_ := n, yielder_ := stateAfter YieldOne s (k + 1) }) := by
  have hc := counter_lt n k hk
  obtain ⟨t, hrun⟩ := runLoop_advance YieldOne n k
    { i := 0, t_out := (Tensor.ofDim n).flat, y := s }
    (fun j hj => hc j (by omega)) hy
  obtain ⟨f, rfl⟩ : ∃ f, fuel = k + (f + 1) := ⟨fuel - k - 1, by omega⟩
  have hstep := loopStep_error YieldOne n
    { i := iterCounter 0 k, t_out := t, y := stateAfter YieldOne s k } e (hc k (by omega)) he
  unfold Compute
  simp only
  rw [hrun (f + 1), runLoop, hstep]
  simp only
  have : (YieldOne (stateAfter YieldOne s k)).2 = stateAfter YieldOne s (k + 1) := by
    rw [← stateAfter_add]; rfl
  rw [this]

theorem Compute_inv (n : Int) (s : σ) (fuel : Nat) (ctx ctx1 : OpKernelContext ε)
    (op1 : GpuAwareRecordInputOp σ)
    (h : Compute YieldOne fuel { batch_size_ := n, yielder_ := s } ctx = some (ctx1, op1)) :
    ∃ k, k < fuel ∧ (∀ j, j < k → iterCounter 0 j < n) ∧
      (∀ j, j < k → ∃ r, nthYield YieldOne s j = .ok r) ∧ op1.batch_size_ = n ∧
      ((¬ iterCounter 0 k < n ∧ op1.yielder_ = stateAfter YieldOne s k ∧ ctx1.status = ctx.status) ∨
       (∃ e, ctx1 = ctx.CtxFailure e ∧ nthYield YieldOne s k = .error e ∧
          op1.yielder_ = stateAfter YieldOne s (k + 1))) := by
  unfold Compute at h
  simp only at h
  cases hrun : runLoop YieldOne n fuel { i := 0, t_out := (Tensor.ofDim n).flat, y := s } with
  | none => rw [hrun] at h; simp at h
  | some res =>
    obtain ⟨st, s1⟩ := res
    obtain ⟨k, hk, hcs, hys, hi, hfin⟩ := runLoop_inv YieldOne n fuel _ st s1 hrun
    rw [hrun] at h
    refine ⟨k, hk, hcs, hys, ?_⟩
    rcases hfin with ⟨hst, hnc, hsy⟩ | ⟨e, hst, _, hne, hsy⟩
    · subst hst
      simp only [Option.some.injEq, Prod.mk.injEq] at h
      obtain ⟨h1, h2⟩ := h
      subst h1 h2
      exact ⟨rfl, Or.inl ⟨by rw [← hi]; exact hnc, hsy, rfl⟩⟩
    · subst hst
      simp only [Option.some.injEq, Prod.mk.injEq] at h
      obtain ⟨h1, h2⟩ := h
      subst h1 h2
      exact ⟨rfl, Or.inr ⟨e, rfl, hne, hsy⟩⟩


end

/-! ## Batch composition and error propagation -/

/-- C1. Batch composition in `Compute`: for every batch size `n` with
`0 ≤ n ≤ 2^31 - 1` and every yielder state `s` from which the next `n`
`YieldOne` calls all succeed, `Compute` (given enough fuel) returns with
status OK, has called `YieldOne` exactly `n` times (the call counter goes
from `c` to `c + n` and the yielder is left in the state after `n` calls),
and sets output 0 to a one-dimensional string tensor of length `n` whose
element `i` is the record returned by the `(i+1)`-th call. -/
theorem Compute_batch_composition {σ ε : Type} (YieldOne : σ → Except ε String × σ)
    (n : Nat) (hmax : (n : Int) ≤ INT_MAX) (s : σ) (c : Nat)
    (hy : ∀ i, i < n → ∃ r, nthYield YieldOne s i = .ok r)
    (fuel : Nat) (hfuel : n < fuel) :
    ∃ out : Tensor,
      Compute (counting YieldOne) fuel { batch_size_ := n, yielder_ := (s, c) }
          (OpKernelContext.fresh ε)
        = some ({ status := .OK, outputs := [some out] },
                { batch_size_ := n, yielder_ := (stateAfter YieldOne s n, c + n) }) ∧
      out.shape = [(n : Int)] ∧ out.flat.length = n ∧
      ∀ i, i < n → ∃ r, nthYield YieldOne s i = .ok r ∧ out.flat[i]? = some r := by
  have hyc : ∀ i, i < n → ∃ r, nthYield (counting YieldOne) (s, c) i = .ok r := by
    intro i hi
    rw [nthYield_counting]
    exact hy i hi
  obtain ⟨hlen, hget⟩ := yieldedRecords_spec (counting YieldOne) n (s, c) hyc
  refine ⟨{ shape := [(n : Int)], flat := yieldedRecords (counting YieldOne) (s, c) n }, ?_,
    rfl, hlen, ?_⟩
  · rw [Compute_ok (counting YieldOne) n hmax (s, c) hyc fuel hfuel, stateAfter_counting]
    rfl
  · intro i hi
    obtain ⟨r, hr, hl⟩ := hget i hi
    rw [nthYield_counting] at hr
    exact ⟨r, hr, hl⟩

/-- Instance of C1: batch size 2 on the list yielder over `a, b, c`. -/
theorem Compute_batch_composition_witness :
    ∃ out : Tensor,
      Compute (counting (listYielder "eof")) 3
          { batch_size_ := ((2 : Nat) : Int), yielder_ := (["a", "b", "c"], 0) }
          (OpKernelContext.fresh String)
        = some ({ status := .OK, outputs := [some out] },
                { batch_size_ := ((2 : Nat) : Int),
                  yielder_ := (stateAfter (listYielder "eof") ["a", "b", "c"] 2, 0 + 2) }) ∧
      out.shape = [((2 : Nat) : Int)] ∧ out.flat.length = 2 ∧
      ∀ i, i < 2 → ∃ r, nthYield (listYielder "eof") ["a", "b", "c"] i = .ok r ∧
        out.flat[i]? = some r :=
  Compute_batch_composition (listYielder "eof") 2 (by decide) ["a", "b", "c"] 0
    (fun i hi => by
      have h : i = 0 ∨ i = 1 := by omega
      rcases h with rfl | rfl
      · exact ⟨"a", rfl⟩
      · exact ⟨"b", rfl⟩)
    3 (by decide)

/-- C2. Error propagation in `Compute`: for every batch size `n` and every
`k` with `1 ≤ k ≤ n`, if the first `k - 1` `YieldOne` calls succeed and the
`k`-th fails with error `e`, then `Compute` (given fuel `k`) fails with
exactly `e`, has made exactly `k` `YieldOne` calls (none after the failure)
and leaves every output as it was.  Conversely, whenever a `Compute` call
that started with status OK ends with an error status, that error is the
one returned by a `YieldOne` call it made, its last one. -/
theorem Compute_error_propagation {σ ε : Type} (YieldOne : σ → Except ε String × σ)
    (n : Int) (k : Nat) (hk1 : 1 ≤ k) (hkn : (k : Int) ≤ n) (s : σ) (c : Nat) (e : ε)
    (hy : ∀ j, j + 1 < k → ∃ r, nthYield YieldOne s j = .ok r)
    (he : nthYield YieldOne s (k - 1) = .error e) :
    (∀ (fuel : Nat) (ctx : OpKernelContext ε), k ≤ fuel →
      Compute (counting YieldOne) fuel { batch_size_ := n, yielder_ := (s, c) } ctx
        = some ({ status := .error e, outputs := ctx.outputs },
                { batch_size_ := n, yielder_ := (stateAfter YieldOne s k, c + k) })) ∧
    (∀ (fuel : Nat) (n1 : Int) (s1 : σ) (ctx ctx1 : OpKernelContext ε)
        (op1 : GpuAwareRecordInputOp σ) (e1 : ε),
      ctx.status = .OK →
      Compute YieldOne fuel { batch_size_ := n1, yielder_ := s1 } ctx = some (ctx1, op1) →
      ctx1.status = .error e1 →
      ∃ j, (∀ i, i < j → ∃ r, nthYield YieldOne s1 i = .ok r) ∧
        nthYield YieldOne s1 j = .error e1 ∧
        op1.yielder_ = stateAfter YieldOne s1 (j + 1) ∧ ctx1.outputs = ctx.outputs) := by
  constructor
  · intro fuel ctx hfuel
    obtain ⟨k0, rfl⟩ : ∃ k0, k = k0 + 1 := ⟨k - 1, by omega⟩
    have h := Compute_fail (counting YieldOne) n k0 (by push_cast at hkn; omega) (s, c) e
      (fun j hj => by rw [nthYield_counting]; exact hy j (by omega))
      (by rw [nthYield_counting]; simpa using he) fuel (by omega) ctx
    rw [h, stateAfter_counting]
    rfl
  · intro fuel n1 s1 ctx ctx1 op1 e1 hctx h hst
    obtain ⟨j, _, _, hys, _, hfin⟩ := Compute_inv YieldOne n1 s1 fuel ctx ctx1 op1 h
    rcases hfin with ⟨_, _, hs⟩ | ⟨e2, hc, hne, hsy⟩
    · rw [hs, hctx] at hst
      cases hst
    · subst hc
      simp only [OpKernelContext.CtxFailure, Status.error.injEq] at hst
      subst hst
      exact ⟨j, hys, hne, hsy, rfl⟩

/-- Instance of C2: batch size 3, the second `YieldOne` call fails. -/
theorem Compute_error_propagation_witness :
    (∀ (fuel : Nat) (ctx : OpKernelContext String), 2 ≤ fuel →
      Compute (counting (listYielder "eof")) fuel { batch_size_ := 3, yielder_ := (["a"], 0) } ctx
        = some ({ status := .error "eof", outputs := ctx.outputs },
                { batch_size_ := 3,
                  yielder_ := (stateAfter (listYielder "eof") ["a"] 2, 0 + 2) })) ∧
    (∀ (fuel : Nat) (n1 : Int) (s1 : List String) (ctx ctx1 : OpKernelContext String)
        (op1 : GpuAwareRecordInputOp (List String)) (e1 : String),
      ctx.status = .OK →
      Compute (listYielder "eof") fuel { batch_size_ := n1, yielder_ := s1 } ctx
        = some (ctx1, op1) →
      ctx1.status = .error e1 →
      ∃ j, (∀ i, i < j → ∃ r, nthYield (listYielder "eof") s1 i = .ok r) ∧
        nthYield (listYielder "eof") s1 j = .error e1 ∧
        op1.yielder_ = stateAfter (listYielder "eof") s1 (j + 1) ∧ ctx1.outputs = ctx.outputs) :=
  Compute_error_propagation (listYielder "eof") 3 2 (by decide) (by decide) ["a"] 0 "eof"
    (fun j hj => by
      have h : j = 0 := by omega
      subst h
      exact ⟨"a", rfl⟩)
    rfl


/-! ## Successive `Compute` calls -/

section
variable {σ ε : Type} (YieldOne : σ → Except ε String × σ)

theorem Compute_ok_inv (n : Nat) (hmax : (n : Int) ≤ INT_MAX) (s : σ) (fuel : Nat)
    (ctx ctx1 : OpKernelContext ε) (op1 : GpuAwareRecordInputOp σ)
    (h : Compute YieldOne fuel { batch_size_ := n, yielder_ := s } ctx = some (ctx1, op1))
    (hst : ctx1.status = .OK) :
    n < fuel ∧ ∀ i, i < n → ∃ r, nthYield YieldOne s i = .ok r := by
  obtain ⟨k, hk, hcs, hys, _, hfin⟩ := Compute_inv YieldOne n s fuel ctx ctx1 op1 h
  rcases hfin with ⟨hnc, _, _⟩ | ⟨e, hc, _, _⟩
  · have hkn : k = n := by
      rcases Nat.lt_trichotomy k n with hlt | heq | hgt
      · exfalso
        apply hnc
        rw [iterCounter_small k 0 (le_refl 0) (by omega)]
        omega
      · exact heq
      · exfalso
        have := hcs n hgt
        rw [iterCounter_small n 0 (le_refl 0) (by omega)] at this
        omega
    subst hkn
    exact ⟨hk, hys⟩
  · subst hc
    simp [OpKernelContext.CtxFailure] at hst

theorem ComputeMany_ok (n : Nat) (hmax : (n : Int) ≤ INT_MAX) (fuel : Nat) (hfuel : n < fuel) :
    ∀ (m : Nat) (s : σ), (∀ i, i < m * n → ∃ r, nthYield YieldOne s i = .ok r) →
    ∃ ctxs op1, ComputeMany YieldOne fuel m { batch_size_ := n, yielder_ := s } = some (ctxs, op1) ∧
      ∀ x, x ∈ ctxs → x.status = Status.OK := by
  intro m
  induction m with
  | zero => intro s _; exact ⟨[], _, rfl, fun x hx => by simp at hx⟩
  | succ m ih =>
    intro s hy
    have hmn : (m + 1) * n = n + m * n := by ring
    have h1 := Compute_ok YieldOne n hmax s (fun i hi => hy i (by omega)) fuel hfuel
      (OpKernelContext.fresh ε)
    obtain ⟨ctxs, op1, hrest, hall⟩ := ih (stateAfter YieldOne s n) (fun i hi => by
      rw [nthYield_add]
      exact hy (n + i) (by omega))
    refine ⟨(OpKernelContext.fresh ε).set_output 0
      { shape := [(n : Int)], flat := yieldedRecords YieldOne s n } :: ctxs, op1, ?_, ?_⟩
    · rw [ComputeMany, h1]
      simp only
      rw [hrest]
    · intro x hx
      rcases List.mem_cons.mp hx with rfl | hx
      · rfl
      · exact hall x hx

theorem ComputeMany_inv (n : Nat) (hmax : (n : Int) ≤ INT_MAX) (fuel : Nat) :
    ∀ (m : Nat) (s : σ) (ctxs : List (OpKernelContext ε)) (op1 : GpuAwareRecordInputOp σ),
    ComputeMany YieldOne fuel m { batch_size_ := n, yielder_ := s } = some (ctxs, op1) →
    (∀ x, x ∈ ctxs → x.status = Status.OK) →
    (∀ i, i < m * n → ∃ r, nthYield YieldOne s i = .ok r) ∧
      op1 = { batch_size_ := n, yielder_ := stateAfter YieldOne s (m * n) } ∧
      ctxs.length = m ∧
      (∀ j, j < m → ctxs[j]? = some { status := .OK, outputs :=
          [some { shape := [(n : Int)],
                  flat := yieldedRecords YieldOne (stateAfter YieldOne s (j * n)) n }] }) ∧
      (ctxs.map outputRecords).flatten = yieldedRecords YieldOne s (m * n) := by
  intro m
  induction m with
  | zero =>
    intro s ctxs op1 h _
    simp only [ComputeMany, Option.some.injEq, Prod.mk.injEq] at h
    obtain ⟨h1, h2⟩ := h
    subst h1 h2
    refine ⟨fun i hi => by omega, by simp [stateAfter], rfl, fun j hj => by omega, ?_⟩
    simp [yieldedRecords]
  | succ m ih =>
    intro s ctxs op1 h hall
    have hmn : (m + 1) * n = n + m * n := by ring
    rw [ComputeMany] at h
    cases hc : Compute YieldOne fuel { batch_size_ := n, yielder_ := s } (OpKernelContext.fresh ε) with
    | none => rw [hc] at h; simp at h
    | some res =>
      obtain ⟨ctx1, opA⟩ := res
      rw [hc] at h
      simp only at h
      cases hr : ComputeMany YieldOne fuel m opA with
      | none => rw [hr] at h; simp at h
      | some res2 =>
        obtain ⟨ctxs2, opB⟩ := res2
        rw [hr] at h
        simp only [Option.some.injEq, Prod.mk.injEq] at h
        obtain ⟨h1, h2⟩ := h
        subst h1 h2
        have hst1 : ctx1.status = .OK := hall ctx1 (List.mem_cons_self _ _)
        obtain ⟨hfuel, hy1⟩ := Compute_ok_inv YieldOne n hmax s fuel _ ctx1 opA hc hst1
        rw [Compute_ok YieldOne n hmax s hy1 fuel hfuel] at hc
        simp only [Option.some.injEq, Prod.mk.injEq] at hc
        obtain ⟨hc1, hc2⟩ := hc
        subst hc1 hc2
        obtain ⟨hy2, hop, hlen, hget, hjoin⟩ := ih (stateAfter YieldOne s n) ctxs2 opB hr
          (fun x hx => hall x (List.mem_cons_of_mem _ hx))
        refine ⟨?_, ?_, by simp [hlen], ?_, ?_⟩
        · intro i hi
          by_cases hin : i < n
          · exact hy1 i hin
          · have := hy2 (i - n) (by omega)
            rw [nthYield_add] at this
            have hi2 : n + (i - n) = i := by omega
            rw [hi2] at this
            exact this
        · rw [hop, stateAfter_add, hmn]
        · intro j hj
          cases j with
          | zero =>
            simp [OpKernelContext.set_output, OpKernelContext.fresh, stateAfter]
          | succ j =>
            have := hget j (by omega)
            rw [stateAfter_add] at this
            have hj2 : (j + 1) * n = n + j * n := by ring
            rw [hj2]
            simpa using this
        · rw [hmn, yieldedRecords_add YieldOne n s (m * n) hy1, ← hjoin]
          simp [outputRecords, OpKernelContext.set_output, OpKernelContext.fresh]

end

/-- C9. One yielder, one continuous stream across `Compute` calls.  For every
batch size `n` with `0 ≤ n ≤ 2^31 - 1` and every `m`:
(1) when the next `m * n` `YieldOne` calls succeed, `m` successive `Compute`
calls (each given fuel above `n`) all return with status OK;
(2) whenever `m` successive `Compute` calls all return with status OK,
`batch_size_` is unchanged, exactly `m * n` `YieldOne` calls were made on
the one yielder (call counter `c + m * n`, yielder in the state after
`m * n` calls), batch `j` holds records `j * n .. j * n + n - 1` of the
yielder's stream in order, and the concatenation of the batches is the
first `m * n` records of the stream;
(3) any `Compute` call that returns leaves `batch_size_` as it was and the
yielder in a state reached from the old one by `YieldOne` calls only. -/
theorem Compute_stream_continuity {σ ε : Type} (YieldOne : σ → Except ε String × σ)
    (n : Nat) (hmax : (n : Int) ≤ INT_MAX) (m : Nat) (s : σ) (c : Nat) :
    (∀ fuel, n < fuel → (∀ i, i < m * n → ∃ r, nthYield YieldOne s i = .ok r) →
      ∃ ctxs op1,
        ComputeMany (counting YieldOne) fuel m { batch_size_ := n, yielder_ := (s, c) }
          = some (ctxs, op1) ∧
        ∀ x, x ∈ ctxs → x.status = Status.OK) ∧
    (∀ fuel ctxs op1,
      ComputeMany (counting YieldOne) fuel m { batch_size_ := n, yielder_ := (s, c) }
        = some (ctxs, op1) →
      (∀ x, x ∈ ctxs → x.status = Status.OK) →
      op1.batch_size_ = n ∧
      op1.yielder_ = (stateAfter YieldOne s (m * n), c + m * n) ∧
      ctxs.length = m ∧
      (∀ j, j < m → ∃ out : Tensor,
        ctxs[j]? = some { status := .OK, outputs := [some out] } ∧
        out.shape = [(n : Int)] ∧ out.flat.length = n ∧
        ∀ i, i < n → ∃ r, nthYield YieldOne s (j * n + i) = .ok r ∧ out.flat[i]? = some r) ∧
      (ctxs.map outputRecords).flatten.length = m * n ∧
      (∀ i, i < m * n → ∃ r, nthYield YieldOne s i = .ok r ∧
        (ctxs.map outputRecords).flatten[i]? = some r)) ∧
    (∀ fuel (op : GpuAwareRecordInputOp σ) (ctx ctx1 : OpKernelContext ε)
        (op1 : GpuAwareRecordInputOp σ),
      Compute YieldOne fuel op ctx = some (ctx1, op1) →
      op1.batch_size_ = op.batch_size_ ∧
      ∃ k, op1.yielder_ = stateAfter YieldOne op.yielder_ k) := by
  refine ⟨?_, ?_, ?_⟩
  · intro fuel hfuel hy
    exact ComputeMany_ok (counting YieldOne) n hmax fuel hfuel m (s, c)
      (fun i hi => by rw [nthYield_counting]; exact hy i hi)
  · intro fuel ctxs op1 h hall
    obtain ⟨hy, hop, hlen, hget, hjoin⟩ :=
      ComputeMany_inv (counting YieldOne) n hmax fuel m (s, c) ctxs op1 h hall
    obtain ⟨hlenAll, hgetAll⟩ := yieldedRecords_spec (counting YieldOne) (m * n) (s, c) hy
    refine ⟨by rw [hop], by rw [hop, stateAfter_counting], hlen, ?_, by rw [hjoin, hlenAll], ?_⟩
    · intro j hj
      have hjn : ∀ i, i < n → j * n + i < m * n := by
        intro i hi
        have : (j + 1) * n ≤ m * n := Nat.mul_le_mul_right n hj
        have h2 : (j + 1) * n = j * n + n := by ring
        omega
      obtain ⟨hl, hg⟩ := yieldedRecords_spec (counting YieldOne) n
        (stateAfter (counting YieldOne) (s, c) (j * n))
        (fun i hi => by rw [nthYield_add]; exact hy _ (hjn i hi))
      refine ⟨_, hget j hj, rfl, hl, ?_⟩
      intro i hi
      obtain ⟨r, hr, hl2⟩ := hg i hi
      rw [nthYield_add, nthYield_counting] at hr
      exact ⟨r, hr, hl2⟩
    · intro i hi
      obtain ⟨r, hr, hl⟩ := hgetAll i hi
      rw [nthYield_counting] at hr
      rw [hjoin]
      exact ⟨r, hr, hl⟩
  · intro fuel op ctx ctx1 op1 h
    obtain ⟨b, y⟩ := op
    obtain ⟨k, _, _, _, hb, hfin⟩ := Compute_inv YieldOne b y fuel ctx ctx1 op1 h
    refine ⟨hb, ?_⟩
    rcases hfin with ⟨_, hs, _⟩ | ⟨_, _, _, hs⟩
    · exact ⟨k, hs⟩
    · exact ⟨k + 1, hs⟩

/-- Instance of C9: two batches of two records from the list yielder over
`a, b, c, d, e`. -/
theorem Compute_stream_continuity_witness :
    ComputeMany (counting (listYielder "eof")) 3 2
        { batch_size_ := ((2 : Nat) : Int), yielder_ := (["a", "b", "c", "d", "e"], 0) }
      = some ([{ status := .OK, outputs := [some { shape := [2], flat := ["a", "b"] }] },
               { status := .OK, outputs := [some { shape := [2], flat := ["c", "d"] }] }],
              { batch_size_ := 2, yielder_ := (["e"], 4) }) ∧
    (["e"], 4) = (stateAfter (listYielder "eof") ["a", "b", "c", "d", "e"] (2 * 2), 0 + 2 * 2) ∧
    (([{ status := .OK, outputs := [some { shape := [2], flat := ["a", "b"] }] },
      { status := .OK, outputs := [some { shape := [2], flat := ["c", "d"] }] }]
        : List (OpKernelContext String)).map outputRecords).flatten.length = 2 * 2 :=
  have h := (Compute_stream_continuity (listYielder "eof") 2 (by decide) 2
    ["a", "b", "c", "d", "e"] 0).2.1 3
    [{ status := .OK, outputs := [some { shape := [2], flat := ["a", "b"] }] },
     { status := .OK, outputs := [some { shape := [2], flat := ["c", "d"] }] }]
    { batch_size_ := 2, yielder_ := (["e"], 4) } (by decide) (by decide)
  ⟨by decide, h.2.1, h.2.2.2.2.1⟩


/-! ## Termination of the loop and the range of its counter -/

section
variable {σ ε : Type} (YieldOne : σ → Except ε String × σ) (b : Int)

theorem runLoop_terminates : ∀ (k a : Nat) (t : List String) (y : σ),
    (a : Int) + k ≤ INT_MAX → b ≤ (a : Int) + k →
    ∀ fuel, k < fuel → ∃ st s1, runLoop YieldOne b fuel { i := a, t_out := t, y := y } = some (st, s1) := by
  intro k
  induction k with
  | zero =>
    intro a t y _ hb fuel hfuel
    obtain ⟨f, rfl⟩ : ∃ f, fuel = f + 1 := ⟨fuel - 1, by omega⟩
    rw [runLoop, loopStep_exit YieldOne b _ (by show ¬ (a : Int) < b; push_cast at hb; omega)]
    exact ⟨_, _, rfl⟩
  | succ k ih =>
    intro a t y hmax hb fuel hfuel
    obtain ⟨f, rfl⟩ : ∃ f, fuel = f + 1 := ⟨fuel - 1, by omega⟩
    by_cases hc : (a : Int) < b
    · cases hres : (YieldOne y).1 with
      | error e =>
        rw [runLoop, loopStep_error YieldOne b { i := a, t_out := t, y := y } e hc hres]
        exact ⟨_, _, rfl⟩
      | ok r =>
        rw [runLoop, loopStep_ok YieldOne b { i := a, t_out := t, y := y } r hc hres]
        have hw : wrapInt32 ((a : Int) + 1) = ((a + 1 : Nat) : Int) := by
          rw [wrapInt32_small] <;> push_cast at * <;> omega
        simp only [hw]
        exact ih (a + 1) _ _ (by push_cast at *; omega) (by push_cast at *; omega) f (by omega)
    · rw [runLoop, loopStep_exit YieldOne b _ hc]
      exact ⟨_, _, rfl⟩

theorem counterTrace_range (hb : b ≤ INT_MAX) : ∀ (fuel a : Nat) (t : List String) (y : σ),
    ∃ len, a + len ≤ max a b.toNat + 1 ∧
      counterTrace YieldOne b fuel { i := a, t_out := t, y := y }
        = (List.range' a len).map Int.ofNat := by
  intro fuel
  induction fuel with
  | zero => intro a t y; exact ⟨0, by omega, rfl⟩
  | succ fuel ih =>
    intro a t y
    by_cases hc : (a : Int) < b
    · cases hres : (YieldOne y).1 with
      | error e =>
        refine ⟨1, by omega, ?_⟩
        rw [counterTrace, loopStep_error YieldOne b { i := a, t_out := t, y := y } e hc hres]
        rfl
      | ok r =>
        have hw : wrapInt32 ((a : Int) + 1) = ((a + 1 : Nat) : Int) := by
          rw [wrapInt32_small] <;> push_cast at * <;> omega
        obtain ⟨len, hlen, htr⟩ := ih (a + 1) (setSlot t (a : Int) r) (YieldOne y).2
        refine ⟨len + 1, by omega, ?_⟩
        rw [counterTrace, loopStep_ok YieldOne b { i := a, t_out := t, y := y } r hc hres]
        simp only [hw]
        rw [htr]
        rfl
    · refine ⟨1, by omega, ?_⟩
      rw [counterTrace, loopStep_exit YieldOne b _ hc]
      rfl

theorem runLoop_calls (hb : b ≤ INT_MAX) (fuel : Nat) (t : List String) (s : σ) (st : Status ε)
    (s1 : LoopState σ)
    (h : runLoop YieldOne b fuel { i := 0, t_out := t, y := s } = some (st, s1)) :
    (st = .OK ∧ s1.y = stateAfter YieldOne s b.toNat ∧ s1.i = b.toNat ∧
        ∀ i, i < b.toNat → ∃ r, nthYield YieldOne s i = .ok r) ∨
    (∃ e k, st = .error e ∧ k < b.toNat ∧ nthYield YieldOne s k = .error e ∧
        (∀ j, j < k → ∃ r, nthYield YieldOne s j = .ok r) ∧
        s1.y = stateAfter YieldOne s (k + 1)) := by
  obtain ⟨k, _, hcs, hys, hi, hfin⟩ := runLoop_inv YieldOne b fuel _ st s1 h
  simp only at hcs hi hys hfin
  have hM : (0 : Int) ≤ INT_MAX := by decide
  have hkle : k ≤ b.toNat := by
    by_contra hgt
    have := hcs b.toNat (by omega)
    rw [iterCounter_small b.toNat 0 (le_refl 0) (by omega)] at this
    omega
  have hik : iterCounter 0 k = k := by
    rw [iterCounter_small k 0 (le_refl 0) (by omega)]
    omega
  rw [hik] at hi
  rcases hfin with ⟨hst, hnc, hsy⟩ | ⟨e, hst, hc, hne, hsy⟩
  · have hkb : k = b.toNat := by omega
    subst hkb
    exact Or.inl ⟨hst, hsy, hi, hys⟩
  · exact Or.inr ⟨e, k, hst, by omega, hne, hys, hsy⟩

theorem runLoop_diverges (hb : INT_MAX < b) (s : σ)
    (hy : ∀ i, ∃ r, nthYield YieldOne s i = .ok r) (fuel : Nat) (t : List String) :
    runLoop YieldOne b fuel { i := 0, t_out := t, y := s } = none := by
  cases h : runLoop YieldOne b fuel { i := 0, t_out := t, y := s } with
  | none => rfl
  | some res =>
    exfalso
    obtain ⟨st, s1⟩ := res
    obtain ⟨k, _, _, _, hi, hfin⟩ := runLoop_inv YieldOne b fuel _ st s1 h
    simp only at hi hfin
    rcases hfin with ⟨_, hnc, _⟩ | ⟨e, _, _, hne, _⟩
    · have := iterCounter_le k 0 (by unfold INT_MAX; omega)
      omega
    · obtain ⟨r, hr⟩ := hy k
      rw [hr] at hne
      cases hne

end

/-- C10 as stated fails when a `YieldOne` call returns an error: with
`batch_size_ = 3` and a yielder whose second call fails, the loop is left
(whatever the fuel) after two `YieldOne` calls, not after `max 3 0 = 3`. -/
theorem Compute_loop_termination_counterexample :
    (3 : Int) ≤ INT_MAX ∧
    runLoop (counting (listYielder "eof")) 3 4 { i := 0, t_out := ["", "", ""], y := (["a"], 0) }
      = some (.error "eof", { i := 1, t_out := ["a", "", ""], y := ([], 2) }) ∧
    (∀ fuel st s1,
      runLoop (counting (listYielder "eof")) 3 fuel { i := 0, t_out := ["", "", ""], y := (["a"], 0) }
        = some (st, s1) → s1.y.2 ≠ (3 : Int).toNat) := by
  refine ⟨by decide, by decide, ?_⟩
  intro fuel st s1 h
  rcases runLoop_calls (counting (listYielder "eof")) 3 (by decide) fuel _ _ st s1 h with
    ⟨_, _, _, hy⟩ | ⟨e, k, _, hk, hne, hys, hsy⟩
  · obtain ⟨r, hr⟩ := hy 1 (by decide)
    cases hr
  · have hk3 : k = 0 ∨ k = 1 ∨ k = 2 := by
      have : (3 : Int).toNat = 3 := rfl
      omega
    rcases hk3 with rfl | rfl | rfl
    · cases hne
    · rw [hsy]; decide
    · obtain ⟨r, hr⟩ := hys 1 (by decide)
      cases hr

/-- C10, amended.  The loop of `Compute` for `batch_size_ = b ≤ 2^31 - 1`
(`b.toNat` is `max b 0`), from counter 0:
(1) it returns for every yielder once the fuel exceeds `max b 0`;
(2) when it returns with status OK it has made exactly `max b 0` `YieldOne`
calls, all successful, and the counter ends at `max b 0`; when it returns
with an error, the failing call is number `k + 1 ≤ max b 0`, the first to
fail, and it is the last call made;
(3) when the next `max b 0` calls all succeed the loop returns OK after
exactly `max b 0` calls (none when `b ≤ 0`);
(4) the counter takes the values `0, 1, ..., len - 1` with
`len - 1 ≤ max b 0`, so `++i` never passes `2^31 - 1`;
(5) the bound on `b` is needed: for `b2 ≥ 2^31` the condition `i < b2` holds
for every wrapped counter value, and on a yielder that never fails the loop
does not return for any fuel;
(6) hence `Compute` itself returns once the fuel exceeds `max b 0`, having
made at most `max b 0` calls. -/
theorem Compute_loop_termination {σ ε : Type} (YieldOne : σ → Except ε String × σ)
    (b : Int) (hb : b ≤ INT_MAX) (t : List String) (s : σ) (c : Nat) :
    (∀ fuel, b.toNat < fuel → ∃ st s1,
      runLoop (counting YieldOne) b fuel { i := 0, t_out := t, y := (s, c) } = some (st, s1)) ∧
    (∀ fuel st s1,
      runLoop (counting YieldOne) b fuel { i := 0, t_out := t, y := (s, c) } = some (st, s1) →
      (st = .OK ∧ s1.y.2 = c + b.toNat ∧ s1.i = max b 0 ∧
          ∀ i, i < b.toNat → ∃ r, nthYield YieldOne s i = .ok r) ∨
      (∃ e k, st = .error e ∧ k < b.toNat ∧ nthYield YieldOne s k = .error e ∧
          (∀ j, j < k → ∃ r, nthYield YieldOne s j = .ok r) ∧ s1.y.2 = c + (k + 1))) ∧
    ((∀ i, i < b.toNat → ∃ r, nthYield YieldOne s i = .ok r) →
      ∀ fuel, b.toNat < fuel → ∃ s1,
        runLoop (counting YieldOne) b fuel { i := 0, t_out := t, y := (s, c) } = some (.OK, s1) ∧
        s1.y.2 = c + b.toNat) ∧
    (∀ fuel, ∃ len, len ≤ b.toNat + 1 ∧ (b.toNat : Int) ≤ INT_MAX ∧
      counterTrace (counting YieldOne) b fuel { i := 0, t_out := t, y := (s, c) }
        = (List.range len).map Int.ofNat) ∧
    (∀ b2 : Int, INT_MAX < b2 →
      (∀ x, wrapInt32 x < b2) ∧
      ((∀ i, ∃ r, nthYield YieldOne s i = .ok r) →
        ∀ fuel, runLoop (counting YieldOne) b2 fuel { i := 0, t_out := t, y := (s, c) } = none)) ∧
    (∀ fuel (ctx : OpKernelContext ε), b.toNat < fuel → ∃ ctx1 op1,
      Compute (counting YieldOne) fuel { batch_size_ := b, yielder_ := (s, c) } ctx
        = some (ctx1, op1) ∧ op1.yielder_.2 ≤ c + b.toNat) := by
  have hM : (0 : Int) ≤ INT_MAX := by decide
  have hterm : ∀ fuel, b.toNat < fuel → ∃ st s1,
      runLoop (counting YieldOne) b fuel { i := 0, t_out := t, y := (s, c) } = some (st, s1) := by
    intro fuel hfuel
    exact runLoop_terminates (counting YieldOne) b b.toNat 0 t (s, c) (by push_cast; omega)
      (by push_cast; omega) fuel hfuel
  have hcalls : ∀ fuel st s1,
      runLoop (counting YieldOne) b fuel { i := 0, t_out := t, y := (s, c) } = some (st, s1) →
      (st = .OK ∧ s1.y.2 = c + b.toNat ∧ s1.i = max b 0 ∧
          ∀ i, i < b.toNat → ∃ r, nthYield YieldOne s i = .ok r) ∨
      (∃ e k, st = .error e ∧ k < b.toNat ∧ nthYield YieldOne s k = .error e ∧
          (∀ j, j < k → ∃ r, nthYield YieldOne s j = .ok r) ∧ s1.y.2 = c + (k + 1)) := by
    intro fuel st s1 h
    rcases runLoop_calls (counting YieldOne) b hb fuel t (s, c) st s1 h with
      ⟨hst, hsy, hi, hys⟩ | ⟨e, k, hst, hk, hne, hys, hsy⟩
    · refine Or.inl ⟨hst, by rw [hsy, stateAfter_counting], by rw [hi]; omega, ?_⟩
      intro i hi
      have := hys i hi
      rwa [nthYield_counting] at this
    · refine Or.inr ⟨e, k, hst, hk, by rwa [nthYield_counting] at hne, ?_,
        by rw [hsy, stateAfter_counting]⟩
      intro j hj
      have := hys j hj
      rwa [nthYield_counting] at this
  refine ⟨hterm, hcalls, ?_, ?_, ?_, ?_⟩
  · intro hy fuel hfuel
    obtain ⟨st, s1, h⟩ := hterm fuel hfuel
    rcases hcalls fuel st s1 h with ⟨hst, hcount, _, _⟩ | ⟨e, k, _, hk, hne, _, _⟩
    · subst hst
      exact ⟨s1, h, hcount⟩
    · obtain ⟨r, hr⟩ := hy k hk
      rw [hr] at hne
      cases hne
  · intro fuel
    obtain ⟨len, hlen, htr⟩ := counterTrace_range (counting YieldOne) b hb fuel 0 t (s, c)
    refine ⟨len, by omega, by omega, ?_⟩
    rw [List.range_eq_range']
    exact htr
  · intro b2 hb2
    refine ⟨fun x => lt_of_le_of_lt (wrapInt32_le x) hb2, ?_⟩
    intro hy fuel
    exact runLoop_diverges (counting YieldOne) b2 hb2 (s, c)
      (fun i => by rw [nthYield_counting]; exact hy i) fuel t
  · intro fuel ctx hfuel
    obtain ⟨st, s1, h⟩ := runLoop_terminates (counting YieldOne) b b.toNat 0
      (Tensor.ofDim b).flat (s, c) (by push_cast; omega) (by push_cast; omega) fuel hfuel
    have hcount : s1.y.2 ≤ c + b.toNat := by
      rcases runLoop_calls (counting YieldOne) b hb fuel _ (s, c) st s1 h with
        ⟨_, hsy, _, _⟩ | ⟨e, k, _, hk, _, _, hsy⟩
      · rw [hsy, stateAfter_counting]
      · rw [hsy, stateAfter_counting]
        show c + (k + 1) ≤ c + b.toNat
        omega
    have h0 : ((0 : Nat) : Int) = 0 := rfl
    rw [h0] at h
    unfold Compute
    simp only
    rw [h]
    cases st with
    | OK => exact ⟨_, _, rfl, hcount⟩
    | error e => exact ⟨_, _, rfl, hcount⟩

/-- Instance of amended C10: `batch_size_ = 2` on the list yielder over
`a, b, c`. -/
theorem Compute_loop_termination_witness :
    (∃ s1, runLoop (counting (listYielder "eof")) 2 3 { i := 0, t_out := ["", ""], y := (["a", "b", "c"], 0) }
        = some (.OK, s1) ∧ s1.y.2 = 0 + (2 : Int).toNat) ∧
    (∀ x, wrapInt32 x < 2147483648) :=
  have h := Compute_loop_termination (listYielder "eof") 2 (by decide) ["", ""] ["a", "b", "c"] 0
  ⟨h.2.2.1 (fun i hi => by
      have h2 : i = 0 ∨ i = 1 := by
        have : (2 : Int).toNat = 2 := rfl
        omega
      rcases h2 with rfl | rfl
      · exact ⟨"a", rfl⟩
      · exact ⟨"b", rfl⟩) 3 (by decide),
   (h.2.2.2.2.1 2147483648 (by decide)).1⟩


/-! ## Registration defaults and the constructor -/

theorem resolveAttrs_missing {ε : Type} (node : List (String × AttrValue)) (d : AttrDef)
    (ds : List AttrDef) (hn : node.lookup d.name = none) (hd : d.default_value = none) :
    resolveAttrs (ε := ε) node (d :: ds) = .error (.missing_attr d.name) := by
  rw [resolveAttrs, hn, hd]

theorem new_of_reads {σ ε : Type} (RecordYielder_new : Options → Except ε σ)
    (ctx : OpKernelConstruction) (file_pattern : String) (file_random_seed : Int)
    (file_shuffle_shift_ratio : float) (file_buffer_size file_parallelism batch_size : Int)
    (h1 : GetAttr_string (ε := ε) ctx "file_pattern" = .ok file_pattern)
    (h2 : GetAttr_int64 (ε := ε) ctx "file_random_seed" = .ok file_random_seed)
    (h3 : GetAttr_float (ε := ε) ctx "file_shuffle_shift_ratio" = .ok file_shuffle_shift_ratio)
    (h4 : GetAttr_int64 (ε := ε) ctx "file_buffer_size" = .ok file_buffer_size)
    (h5 : GetAttr_int64 (ε := ε) ctx "file_parallelism" = .ok file_parallelism)
    (h6 : GetAttr_int64 (ε := ε) ctx "batch_size" = .ok batch_size) :
    GpuAwareRecordInputOp.new RecordYielder_new ctx
      = (match RecordYielder_new
            { file_pattern := file_pattern, seed := file_random_seed,
              bufsize := file_buffer_size,
              file_shuffle_shift_ratio := file_shuffle_shift_ratio,
              parallelism := file_parallelism } with
         | .error e => .error (.yielder e)
         | .ok y => .ok { batch_size_ := batch_size, yielder_ := y }) := by
  unfold GpuAwareRecordInputOp.new
  rw [h1, h2, h3, h4, h5, h6]

/-- C3. Construction-parameter defaults of the `GpuAwareRecordInput` op:
for a node that supplies only `file_pattern = p`, the yielder is built from
options with seed 301, shift ratio 0, buffer size 10000 and parallelism 16
(and the pattern `p`), and the kernel's batch size is 32; the registration
declares exactly these defaults and none for `file_pattern`, and a node
without `file_pattern` gets no kernel (the attribute is required). -/
theorem GpuAwareRecordInput_defaults {σ ε : Type} (RecordYielder_new : Options → Except ε σ)
    (p : String) :
    CreateOpKernel RecordYielder_new [("file_pattern", .s p)]
      = (match RecordYielder_new
            { file_pattern := p, seed := 301, bufsize := 10000,
              file_shuffle_shift_ratio := { bits := 0 }, parallelism := 16 } with
         | .error e => .error (.yielder e)
         | .ok y => .ok { batch_size_ := 32, yielder_ := y }) ∧
    GpuAwareRecordInput.attr.map (fun d => (d.name, d.default_value))
      = [("file_pattern", none), ("file_random_seed", some (.i 301)),
         ("file_shuffle_shift_ratio", some (.f { bits := 0 })),
         ("file_buffer_size", some (.i 10000)), ("file_parallelism", some (.i 16)),
         ("batch_size", some (.i 32))] ∧
    (∀ node : List (String × AttrValue), node.lookup "file_pattern" = none →
      CreateOpKernel RecordYielder_new node = .error (.missing_attr "file_pattern")) := by
  refine ⟨?_, by decide, ?_⟩
  · exact new_of_reads RecordYielder_new
      { attrs := [("file_pattern", .s p), ("file_random_seed", .i 301),
                  ("file_shuffle_shift_ratio", .f { bits := 0 }),
                  ("file_buffer_size", .i 10000), ("file_parallelism", .i 16),
                  ("batch_size", .i 32)] }
      p 301 { bits := 0 } 10000 16 32 rfl rfl rfl rfl rfl rfl
  · intro node hn
    unfold CreateOpKernel
    have : GpuAwareRecordInput.attr
        = { name := "file_pattern", type := .string, default_value := none }
            :: GpuAwareRecordInput.attr.tail := rfl
    rw [this, resolveAttrs_missing node _ _ hn rfl]

/-- C4. Options mapping in the constructor: whenever the six attributes are
read successfully, the yielder is built from options with
`file_pattern = file_pattern`, `seed = file_random_seed`,
`bufsize = file_buffer_size`,
`file_shuffle_shift_ratio = file_shuffle_shift_ratio` and
`parallelism = file_parallelism`, and `batch_size` goes to `batch_size_`
only: a second context that differs in `batch_size` alone hands the very
same options to the yielder (shown with the yielder constructor that keeps
its options). -/
theorem constructor_options_mapping {σ ε : Type} (RecordYielder_new : Options → Except ε σ)
    (ctx : OpKernelConstruction) (file_pattern : String) (file_random_seed : Int)
    (file_shuffle_shift_ratio : float) (file_buffer_size file_parallelism batch_size : Int)
    (h1 : GetAttr_string (ε := ε) ctx "file_pattern" = .ok file_pattern)
    (h2 : GetAttr_int64 (ε := ε) ctx "file_random_seed" = .ok file_random_seed)
    (h3 : GetAttr_float (ε := ε) ctx "file_shuffle_shift_ratio" = .ok file_shuffle_shift_ratio)
    (h4 : GetAttr_int64 (ε := ε) ctx "file_buffer_size" = .ok file_buffer_size)
    (h5 : GetAttr_int64 (ε := ε) ctx "file_parallelism" = .ok file_parallelism)
    (h6 : GetAttr_int64 (ε := ε) ctx "batch_size" = .ok batch_size) :
    GpuAwareRecordInputOp.new RecordYielder_new ctx
      = (match RecordYielder_new
            { file_pattern := file_pattern, seed := file_random_seed,
              bufsize := file_buffer_size,
              file_shuffle_shift_ratio := file_shuffle_shift_ratio,
              parallelism := file_parallelism } with
         | .error e => .error (.yielder e)
         | .ok y => .ok { batch_size_ := batch_size, yielder_ := y }) ∧
    GpuAwareRecordInputOp.new (fun o => (Except.ok o : Except ε Options)) ctx
      = .ok { batch_size_ := batch_size,
              yielder_ := { file_pattern := file_pattern, seed := file_random_seed,
                            bufsize := file_buffer_size,
                            file_shuffle_shift_ratio := file_shuffle_shift_ratio,
                            parallelism := file_parallelism } } ∧
    (∀ (ctx2 : OpKernelConstruction) (batch_size2 : Int),
      GetAttr_string (ε := ε) ctx2 "file_pattern" = .ok file_pattern →
      GetAttr_int64 (ε := ε) ctx2 "file_random_seed" = .ok file_random_seed →
      GetAttr_float (ε := ε) ctx2 "file_shuffle_shift_ratio" = .ok file_shuffle_shift_ratio →
      GetAttr_int64 (ε := ε) ctx2 "file_buffer_size" = .ok file_buffer_size →
      GetAttr_int64 (ε := ε) ctx2 "file_parallelism" = .ok file_parallelism →
      GetAttr_int64 (ε := ε) ctx2 "batch_size" = .ok batch_size2 →
      (GpuAwareRecordInputOp.new (fun o => (Except.ok o : Except ε Options)) ctx2).map
          (fun op => op.yielder_)
        = (GpuAwareRecordInputOp.new (fun o => (Except.ok o : Except ε Options)) ctx).map
          (fun op => op.yielder_) ∧
      (GpuAwareRecordInputOp.new (fun o => (Except.ok o : Except ε Options)) ctx2).map
          (fun op => op.batch_size_) = .ok batch_size2) := by
  refine ⟨new_of_reads RecordYielder_new ctx _ _ _ _ _ _ h1 h2 h3 h4 h5 h6,
    new_of_reads _ ctx _ _ _ _ _ _ h1 h2 h3 h4 h5 h6, ?_⟩
  intro ctx2 batch_size2 g1 g2 g3 g4 g5 g6
  rw [new_of_reads _ ctx2 _ _ _ _ _ _ g1 g2 g3 g4 g5 g6,
    new_of_reads _ ctx _ _ _ _ _ _ h1 h2 h3 h4 h5 h6]
  exact ⟨rfl, rfl⟩

/-- Instance of C4: six attributes with pairwise different values. -/
theorem constructor_options_mapping_witness :
    GpuAwareRecordInputOp.new (fun o => (Except.ok o : Except String Options))
        { attrs := [("batch_size", .i 5), ("file_parallelism", .i 4), ("file_buffer_size", .i 3),
                    ("file_shuffle_shift_ratio", .f { bits := 1056964608 }),
                    ("file_random_seed", .i 2), ("file_pattern", .s "data-*")] }
      = .ok { batch_size_ := 5,
              yielder_ := { file_pattern := "data-*", seed := 2, bufsize := 3,
                            file_shuffle_shift_ratio := { bits := 1056964608 },
                            parallelism := 4 } } :=
  (constructor_options_mapping (fun o => (Except.ok o : Except String Options))
    { attrs := [("batch_size", .i 5), ("file_parallelism", .i 4), ("file_buffer_size", .i 3),
                ("file_shuffle_shift_ratio", .f { bits := 1056964608 }),
                ("file_random_seed", .i 2), ("file_pattern", .s "data-*")] }
    "data-*" 2 { bits := 1056964608 } 3 4 5 rfl rfl rfl rfl rfl rfl).2.1

/-! ## Construction of the yielder (from the specification) -/

/-- C5. Bad options are fatal at construction: whenever the six attributes
are read and `file_buffer_size ≤ 0`, or `file_parallelism ≤ 0`, or
`file_pattern` is empty, the yielder's construction reports `ConfigError`
and the construction of the operator fails with it, so that no kernel (on
which `Compute` could run) results. -/
theorem bad_options_fatal (ListShards : String → List String)
    (ctx : OpKernelConstruction) (file_pattern : String) (file_random_seed : Int)
    (file_shuffle_shift_ratio : float) (file_buffer_size file_parallelism batch_size : Int)
    (h1 : GetAttr_string (ε := YielderError) ctx "file_pattern" = .ok file_pattern)
    (h2 : GetAttr_int64 (ε := YielderError) ctx "file_random_seed" = .ok file_random_seed)
    (h3 : GetAttr_float (ε := YielderError) ctx "file_shuffle_shift_ratio"
            = .ok file_shuffle_shift_ratio)
    (h4 : GetAttr_int64 (ε := YielderError) ctx "file_buffer_size" = .ok file_buffer_size)
    (h5 : GetAttr_int64 (ε := YielderError) ctx "file_parallelism" = .ok file_parallelism)
    (h6 : GetAttr_int64 (ε := YielderError) ctx "batch_size" = .ok batch_size)
    (hbad : file_buffer_size ≤ 0 ∨ file_parallelism ≤ 0 ∨ file_pattern = "") :
    RecordYielder.new ListShards
        { file_pattern := file_pattern, seed := file_random_seed, bufsize := file_buffer_size,
          file_shuffle_shift_ratio := file_shuffle_shift_ratio,
          parallelism := file_parallelism } = .error .ConfigError ∧
    GpuAwareRecordInputOp.new (RecordYielder.new ListShards) ctx
      = .error (.yielder .ConfigError) ∧
    (∀ op, GpuAwareRecordInputOp.new (RecordYielder.new ListShards) ctx ≠ .ok op) := by
  have hy : RecordYielder.new ListShards
        { file_pattern := file_pattern, seed := file_random_seed, bufsize := file_buffer_size,
          file_shuffle_shift_ratio := file_shuffle_shift_ratio,
          parallelism := file_parallelism } = .error .ConfigError := by
    unfold RecordYielder.new
    rw [if_pos hbad]
  have hn : GpuAwareRecordInputOp.new (RecordYielder.new ListShards) ctx
      = .error (.yielder .ConfigError) := by
    rw [new_of_reads _ ctx _ _ _ _ _ _ h1 h2 h3 h4 h5 h6, hy]
  refine ⟨hy, hn, ?_⟩
  intro op hop
  rw [hn] at hop
  cases hop

/-- Instance of C5: a node with `file_buffer_size = 0`. -/
theorem bad_options_fatal_witness :
    GpuAwareRecordInputOp.new (RecordYielder.new (fun _ => ["shard-0"]))
        { attrs := [("file_pattern", .s "data-*"), ("file_random_seed", .i 301),
                    ("file_shuffle_shift_ratio", .f { bits := 0 }),
                    ("file_buffer_size", .i 0), ("file_parallelism", .i 16),
                    ("batch_size", .i 32)] }
      = .error (.yielder .ConfigError) :=
  (bad_options_fatal (fun _ => ["shard-0"])
    { attrs := [("file_pattern", .s "data-*"), ("file_random_seed", .i 301),
                ("file_shuffle_shift_ratio", .f { bits := 0 }),
                ("file_buffer_size", .i 0), ("file_parallelism", .i 16),
                ("batch_size", .i 32)] }
    "data-*" 301 { bits := 0 } 0 16 32 rfl rfl rfl rfl rfl rfl (Or.inl (le_refl 0))).2.1


/-! ## The shuffle buffer (from the specification) -/

theorem Push_buffer_size (b : ShuffleBuffer) (r : String) :
    (b.Push r).buffer_size = b.buffer_size := by
  unfold ShuffleBuffer.Push
  split <;> rfl

theorem Push_bounded (b : ShuffleBuffer) (r : String)
    (h : b.records.length ≤ b.buffer_size) :
    (b.Push r).records.length ≤ b.buffer_size := by
  unfold ShuffleBuffer.Push
  split
  · simp only [List.length_append, List.length_singleton]
    omega
  · exact h

theorem Pop_buffer_size (b : ShuffleBuffer) (choice : Nat) :
    (b.Pop choice).2.buffer_size = b.buffer_size := by
  unfold ShuffleBuffer.Pop
  split
  · rfl
  · simp only
    split
    · rfl
    · split <;> rfl

theorem Pop_bounded (b : ShuffleBuffer) (choice : Nat)
    (h : b.records.length ≤ b.buffer_size) :
    (b.Pop choice).2.records.length ≤ b.buffer_size := by
  unfold ShuffleBuffer.Pop
  split
  · exact h
  · simp only
    have hle : (b.records.eraseIdx (choice % b.records.length)).length ≤ b.records.length := by
      rw [List.length_eraseIdx]
      split <;> omega
    split
    · exact le_trans hle h
    · split
      · simp only [List.length_append, List.length_singleton]
        omega
      · exact le_trans hle h

theorem apply_bounded (b : ShuffleBuffer) (op : BufferOp)
    (h : b.records.length ≤ b.buffer_size) :
    (b.apply op).records.length ≤ (b.apply op).buffer_size ∧
      (b.apply op).buffer_size = b.buffer_size := by
  cases op with
  | Push r =>
    exact ⟨by rw [ShuffleBuffer.apply, Push_buffer_size]; exact Push_bounded b r h,
      Push_buffer_size b r⟩
  | Pop choice =>
    exact ⟨by rw [ShuffleBuffer.apply, Pop_buffer_size]; exact Pop_bounded b choice h,
      Pop_buffer_size b choice⟩

theorem run_bounded : ∀ (ops : List BufferOp) (b : ShuffleBuffer),
    b.records.length ≤ b.buffer_size →
    (b.run ops).records.length ≤ b.buffer_size ∧ (b.run ops).buffer_size = b.buffer_size := by
  intro ops
  induction ops with
  | nil => intro b h; exact ⟨h, rfl⟩
  | cons op ops ih =>
    intro b h
    obtain ⟨h1, h2⟩ := apply_bounded b op h
    have := ih (b.apply op) h1
    rw [h2] at this
    exact this

/-- C6. Shuffle buffer capacity invariant: for every `buffer_size ≥ 1` and
every finite sequence of `Push` and `Pop` operations applied to an
initially empty `ShuffleBuffer`, the number of records held after each
operation (after every initial part of the sequence) is at most
`buffer_size`, and the capacity itself never changes.  A `Push` on a buffer
at capacity inserts nothing: the record waits with the suspended callers,
and the next `Pop` that returns a record inserts the longest-waiting one. -/
theorem ShuffleBuffer_capacity (buffer_size : Nat) (hsize : 1 ≤ buffer_size)
    (ops : List BufferOp) :
    (∀ k, (((ShuffleBuffer.empty buffer_size).run (ops.take k)).records.length ≤ buffer_size ∧
      ((ShuffleBuffer.empty buffer_size).run (ops.take k)).buffer_size = buffer_size)) ∧
    (∀ (b : ShuffleBuffer) (r : String), b.records.length = b.buffer_size →
      (b.Push r).records = b.records ∧ (b.Push r).suspended = b.suspended ++ [r]) ∧
    (∀ (b : ShuffleBuffer) (choice : Nat) (w : String) (ws : List String),
      b.buffer_size = buffer_size → b.records.length = b.buffer_size → b.suspended = w :: ws →
      ∃ r, (b.Pop choice).1 = some r ∧
        (b.Pop choice).2.records = b.records.eraseIdx (choice % b.records.length) ++ [w] ∧
        (b.Pop choice).2.suspended = ws ∧
        (b.Pop choice).2.records.length = b.buffer_size) := by
  refine ⟨?_, ?_, ?_⟩
  · intro k
    exact run_bounded (ops.take k) (ShuffleBuffer.empty buffer_size) (Nat.zero_le _)
  · intro b r hfull
    unfold ShuffleBuffer.Push
    rw [if_neg (by omega)]
    exact ⟨rfl, rfl⟩
  · intro b choice w ws hcap hfull hsus
    have hpos : 0 < b.records.length := by omega
    have hidx : choice % b.records.length < b.records.length := Nat.mod_lt _ hpos
    have hlen : (b.records.eraseIdx (choice % b.records.length)).length
        = b.records.length - 1 := by
      rw [List.length_eraseIdx, if_pos hidx]
    refine ⟨b.records[choice % b.records.length], ?_⟩
    unfold ShuffleBuffer.Pop
    rw [List.getElem?_eq_getElem hidx]
    simp only [hsus]
    rw [if_pos (by omega)]
    refine ⟨rfl, rfl, rfl, ?_⟩
    simp only [List.length_append, List.length_singleton, hlen]
    omega

/-- Instance of C6: capacity 2, three pushes and two pops. -/
theorem ShuffleBuffer_capacity_witness :
    ((ShuffleBuffer.empty 2).run
        ([BufferOp.Push "a", .Push "b", .Push "c", .Pop 0, .Pop 5].take 3)).records.length ≤ 2 ∧
    ((ShuffleBuffer.empty 2).run
        ([BufferOp.Push "a", .Push "b", .Push "c", .Pop 0, .Pop 5].take 3)).buffer_size = 2 :=
  (ShuffleBuffer_capacity 2 (by decide)
    [BufferOp.Push "a", .Push "b", .Push "c", .Pop 0, .Pop 5]).1 3


/-! ## The epoch order (from the specification) -/

theorem set_perm_cons_eraseIdx : ∀ (l : List String) (i : Nat) (b : String), i < l.length →
    (l.set i b).Perm (b :: l.eraseIdx i) := by
  intro l
  induction l with
  | nil => intro i b h; simp at h
  | cons x xs ih =>
    intro i b h
    cases i with
    | zero => exact List.Perm.refl _
    | succ i =>
      have hi : i < xs.length := by simpa using h
      have h1 : ((x :: xs).set (i + 1) b) = x :: xs.set i b := rfl
      have h2 : (x :: xs).eraseIdx (i + 1) = x :: xs.eraseIdx i := rfl
      rw [h1, h2]
      exact ((ih i b hi).cons x).trans (List.Perm.swap b x _)

theorem set_getElem_same : ∀ (l : List String) (i : Nat) (h : i < l.length),
    l.set i l[i] = l := by
  intro l
  induction l with
  | nil => intro i h; simp at h
  | cons x xs ih =>
    intro i h
    cases i with
    | zero => rfl
    | succ i =>
      have hi : i < xs.length := by simpa using h
      show x :: xs.set i xs[i] = x :: xs
      rw [ih i hi]

theorem perm_cons_eraseIdx (l : List String) (i : Nat) (h : i < l.length) :
    l.Perm (l[i] :: l.eraseIdx i) := by
  have := set_perm_cons_eraseIdx l i l[i] h
  rwa [set_getElem_same] at this

theorem swapAt_perm (l : List String) (i j : Nat) : (swapAt l i j).Perm l := by
  unfold swapAt
  split
  · rename_i a b ha hb
    obtain ⟨hi, hia⟩ := List.getElem?_eq_some_iff.mp ha
    obtain ⟨hj, hjb⟩ := List.getElem?_eq_some_iff.mp hb
    by_cases hij : i = j
    · subst hij
      have hab : a = b := by rw [← hia, ← hjb]
      subst hab
      rw [List.set_set]
      have : l.set i a = l := by rw [← hia]; exact set_getElem_same l i hi
      rw [this]
    · have hj2 : j < (l.set i b).length := by simpa using hj
      have hget : (l.set i b)[j] = b := by
        rw [List.getElem_set_ne hij]
        exact hjb
      have p1 : ((l.set i b).set j a).Perm (a :: (l.set i b).eraseIdx j) :=
        set_perm_cons_eraseIdx _ j a hj2
      have p2 : (l.set i b).Perm (b :: (l.set i b).eraseIdx j) := by
        have := perm_cons_eraseIdx (l.set i b) j hj2
        rwa [hget] at this
      have p3 : (l.set i b).Perm (b :: l.eraseIdx i) := set_perm_cons_eraseIdx l i b hi
      have p4 : l.Perm (a :: l.eraseIdx i) := by
        have := perm_cons_eraseIdx l i hi
        rwa [hia] at this
      have p5 : ((l.set i b).eraseIdx j).Perm (l.eraseIdx i) :=
        List.Perm.cons_inv (p2.symm.trans p3)
      exact p1.trans ((p5.cons a).trans p4.symm)
  · exact List.Perm.refl _

theorem fisherYates_perm (next : Nat → Nat × Nat) : ∀ (i : Nat) (gen : Generator)
    (l : List String), (fisherYates next i gen l).1.Perm l := by
  intro i
  induction i with
  | zero => intro gen l; exact List.Perm.refl _
  | succ i ih =>
    intro gen l
    rw [fisherYates]
    exact (ih _ _).trans (swapAt_perm l _ _)

theorem rotateLeft_perm (l : List String) (k : Nat) : (rotateLeft l k).Perm l := by
  unfold rotateLeft
  have h : (l.drop (k % l.length) ++ l.take (k % l.length)).Perm
      (l.take (k % l.length) ++ l.drop (k % l.length)) := List.perm_append_comm
  rw [List.take_append_drop] at h
  exact h

theorem OrderFor_perm (mix : Int → Nat → Nat) (next : Nat → Nat × Nat)
    (shiftOf : float → Nat → Nat → Nat) (p : EpochPlanner) (gen : Generator) (epoch : Nat) :
    (p.OrderFor mix next shiftOf gen epoch).1.Perm p.shards := by
  unfold EpochPlanner.OrderFor
  exact (rotateLeft_perm _ _).trans (fisherYates_perm _ _ _ _)

theorem seed_forgets (gen1 gen2 : Generator) (value : Nat) :
    gen1.seed value = gen2.seed value := by
  unfold Generator.seed
  rfl

theorem OrderFor_any_generator (mix : Int → Nat → Nat) (next : Nat → Nat × Nat)
    (shiftOf : float → Nat → Nat → Nat) (p : EpochPlanner) (gen1 gen2 : Generator)
    (epoch : Nat) :
    p.OrderFor mix next shiftOf gen1 epoch = p.OrderFor mix next shiftOf gen2 epoch := by
  unfold EpochPlanner.OrderFor
  rw [seed_forgets gen1 gen2]

theorem orderWithoutSeeding_depends :
    (orderWithoutSeeding (fun g => (g, g + 1)) (fun _ _ _ => 0)
        { shards := ["S1", "S2"], seed := 42, shuffle_shift_ratio := { bits := 0 } }
        { state := 0 } 0).1 = ["S2", "S1"] ∧
    (orderWithoutSeeding (fun g => (g, g + 1)) (fun _ _ _ => 0)
        { shards := ["S1", "S2"], seed := 42, shuffle_shift_ratio := { bits := 0 } }
        { state := 1 } 0).1 = ["S1", "S2"] := by
  decide

theorem new_planner (ListShards : String → List String) (o : Options) (y : RecordYielder)
    (h : RecordYielder.new ListShards o = .ok y) :
    y.planner = { shards := ListShards o.file_pattern, seed := o.seed,
                  shuffle_shift_ratio := o.file_shuffle_shift_ratio } ∧
    y.state = .Running := by
  unfold RecordYielder.new at h
  split at h
  · cases h
  · split at h
    · cases h
    · rename_i shard shards hs
      cases h
      rw [hs]
      exact ⟨rfl, rfl⟩

/-- C7. Determinism of the epoch order.
(1) `OrderFor(epoch)` is a function of the shard list, the seed, the shift
ratio and the epoch alone: one function `f` of these four gives the order
returned by every planner, whatever state its generator was in when the
call was made.
(2) Two yielders built over the same dataset (`ListShards`) from options
that agree on `file_pattern`, `seed` and `file_shuffle_shift_ratio`
(whatever their buffer sizes and parallelism, and whatever their generators
have drawn before) return identical orders for every epoch.
(3) Every order returned is a permutation of the shard list.
(4) After any history of earlier `OrderFor` calls on a planner, a call for
`epoch` returns the order a first call returns.
(5) In particular, with ratio 0, shards `S1, S2` and seed 42, a second call
of `OrderFor(0)`, made on the generator as the first call left it, returns
the same permutation of `S1, S2` as the first. -/
theorem EpochPlanner_deterministic (mix : Int → Nat → Nat) (next : Nat → Nat × Nat)
    (shiftOf : float → Nat → Nat → Nat) (ListShards : String → List String)
    (o1 o2 : Options) (y1 y2 : RecordYielder)
    (hy1 : RecordYielder.new ListShards o1 = .ok y1)
    (hy2 : RecordYielder.new ListShards o2 = .ok y2)
    (hpattern : o1.file_pattern = o2.file_pattern) (hseed : o1.seed = o2.seed)
    (hratio : o1.file_shuffle_shift_ratio = o2.file_shuffle_shift_ratio) :
    (∃ f : List String → Int → float → Nat → List String,
      ∀ (p : EpochPlanner) (gen : Generator) (epoch : Nat),
        (p.OrderFor mix next shiftOf gen epoch).1
          = f p.shards p.seed p.shuffle_shift_ratio epoch) ∧
    (∀ (epoch : Nat) (gen1 gen2 : Generator),
      (y1.planner.OrderFor mix next shiftOf gen1 epoch).1
        = (y2.planner.OrderFor mix next shiftOf gen2 epoch).1) ∧
    (∀ (epoch : Nat) (gen : Generator),
      (y1.planner.OrderFor mix next shiftOf gen epoch).1.Perm (ListShards o1.file_pattern)) ∧
    (∀ (history : List Nat) (gen : Generator) (epoch : Nat),
      (y1.planner.OrderFor mix next shiftOf
          (y1.planner.generatorAfter mix next shiftOf gen history) epoch).1
        = (y1.planner.OrderFor mix next shiftOf gen epoch).1) ∧
    (∀ gen : Generator,
      (EpochPlanner.OrderFor mix next shiftOf
          { shards := ["S1", "S2"], seed := 42, shuffle_shift_ratio := { bits := 0 } }
          (EpochPlanner.OrderFor mix next shiftOf
            { shards := ["S1", "S2"], seed := 42, shuffle_shift_ratio := { bits := 0 } }
            gen 0).2 0).1
        = (EpochPlanner.OrderFor mix next shiftOf
          { shards := ["S1", "S2"], seed := 42, shuffle_shift_ratio := { bits := 0 } }
          gen 0).1 ∧
      (EpochPlanner.OrderFor mix next shiftOf
          { shards := ["S1", "S2"], seed := 42, shuffle_shift_ratio := { bits := 0 } }
          gen 0).1.Perm ["S1", "S2"]) := by
  obtain ⟨hp1, _⟩ := new_planner ListShards o1 y1 hy1
  obtain ⟨hp2, _⟩ := new_planner ListShards o2 y2 hy2
  refine ⟨?_, ?_, ?_, ?_, ?_⟩
  · refine ⟨fun shards seed ratio epoch =>
      (EpochPlanner.OrderFor mix next shiftOf
        { shards := shards, seed := seed, shuffle_shift_ratio := ratio } { state := 0 } epoch).1,
      ?_⟩
    intro p gen epoch
    rw [OrderFor_any_generator mix next shiftOf p gen { state := 0 } epoch]
  · intro epoch gen1 gen2
    rw [hp1, hp2, hpattern, hseed, hratio, OrderFor_any_generator mix next shiftOf _ gen1 gen2]
  · intro epoch gen
    have := OrderFor_perm mix next shiftOf y1.planner gen epoch
    rw [hp1] at this ⊢
    exact this
  · intro history gen epoch
    rw [OrderFor_any_generator mix next shiftOf y1.planner _ gen]
  · intro gen
    exact ⟨by rw [OrderFor_any_generator mix next shiftOf _ _ gen], OrderFor_perm _ _ _ _ _ _⟩

/-- Instance of C7: two yielders whose options differ in buffer size and
parallelism only, over a dataset of two shards, asked for epoch 1 with
generators in different states. -/
theorem EpochPlanner_deterministic_witness :
    (EpochPlanner.OrderFor (fun s e => s.toNat + e) (fun g => (g / 3, g * 7 + 1))
        (fun _ _ _ => 0)
        (RecordYielder.planner
          { opts := { file_pattern := "data-*", seed := 42, bufsize := 10,
                      file_shuffle_shift_ratio := { bits := 0 }, parallelism := 2 }
            planner := { shards := ["S1", "S2"], seed := 42, shuffle_shift_ratio := { bits := 0 } }
            state := .Running, epoch := 0, buffer := ShuffleBuffer.empty 10, workers := 2 })
        { state := 5 } 1).1
      = (EpochPlanner.OrderFor (fun s e => s.toNat + e) (fun g => (g / 3, g * 7 + 1))
        (fun _ _ _ => 0)
        (RecordYielder.planner
          { opts := { file_pattern := "data-*", seed := 42, bufsize := 999,
                      file_shuffle_shift_ratio := { bits := 0 }, parallelism := 7 }
            planner := { shards := ["S1", "S2"], seed := 42, shuffle_shift_ratio := { bits := 0 } }
            state := .Running, epoch := 0, buffer := ShuffleBuffer.empty 999, workers := 7 })
        { state := 77 } 1).1 :=
  (EpochPlanner_deterministic (fun s e => s.toNat + e) (fun g => (g / 3, g * 7 + 1))
    (fun _ _ _ => 0) (fun _ => ["S1", "S2"])
    { file_pattern := "data-*", seed := 42, bufsize := 10, file_shuffle_shift_ratio := { bits := 0 },
      parallelism := 2 }
    { file_pattern := "data-*", seed := 42, bufsize := 999, file_shuffle_shift_ratio := { bits := 0 },
      parallelism := 7 }
    { opts := { file_pattern := "data-*", seed := 42, bufsize := 10,
                file_shuffle_shift_ratio := { bits := 0 }, parallelism := 2 }
      planner := { shards := ["S1", "S2"], seed := 42, shuffle_shift_ratio := { bits := 0 } }
      state := .Running, epoch := 0, buffer := ShuffleBuffer.empty 10, workers := 2 }
    { opts := { file_pattern := "data-*", seed := 42, bufsize := 999,
                file_shuffle_shift_ratio := { bits := 0 }, parallelism := 7 }
      planner := { shards := ["S1", "S2"], seed := 42, shuffle_shift_ratio := { bits := 0 } }
      state := .Running, epoch := 0, buffer := ShuffleBuffer.empty 999, workers := 7 }
    rfl rfl rfl rfl rfl).2.1 1 { state := 5 } { state := 77 }


/-! ## Closing the yielder (from the specification) -/

theorem closed_call (y : RecordYielder) (h : y.state = .Closed) (c : YielderCall) :
    y.call c = some ((match c with
                      | .YieldOne _ => .error .ClosedError
                      | .Close => .ok none), y) := by
  cases c with
  | YieldOne choice =>
    simp only [RecordYielder.call, RecordYielder.YieldOne, h]
  | Close =>
    simp only [RecordYielder.call, RecordYielder.Close, h]

theorem closed_calls : ∀ (cs : List YielderCall) (y : RecordYielder), y.state = .Closed →
    y.calls cs = some (cs.map (fun c => match c with
                                        | .YieldOne _ => .error .ClosedError
                                        | .Close => .ok none), y) := by
  intro cs
  induction cs with
  | nil => intro y _; rfl
  | cons c cs ih =>
    intro y h
    rw [RecordYielder.calls, closed_call y h c]
    simp only
    rw [ih y h]
    rfl

/-- C8. `Close` is idempotent and closes the stream: for every yielder in
state `Running`, a first `Close()` returns without error and leaves the
state `Closed`; a second `Close()` returns without error and changes
nothing; every `YieldOne()` made after the first `Close()`, in any sequence
of further `YieldOne` and `Close` calls, returns (it does not suspend) with
`ClosedError` and no record, every further `Close` returns without error,
and the yielder stays as the first `Close` left it. -/
theorem Close_idempotent (y : RecordYielder) (hrun : y.state = .Running) :
    y.Close.1 = .ok () ∧ y.Close.2.state = .Closed ∧
    y.Close.2.Close.1 = .ok () ∧ y.Close.2.Close.2 = y.Close.2 ∧
    (∀ choice, y.Close.2.YieldOne choice = some (.error .ClosedError, y.Close.2)) ∧
    (∀ choice, y.Close.2.Close.2.YieldOne choice = some (.error .ClosedError, y.Close.2)) ∧
    (∀ cs : List YielderCall,
      y.Close.2.calls cs
        = some (cs.map (fun c => match c with
                                  | .YieldOne _ => .error .ClosedError
                                  | .Close => .ok none), y.Close.2)) := by
  have hc : y.Close = (.ok (), { y with state := .Closed, workers := 0 }) := by
    simp only [RecordYielder.Close, hrun]
  have hs : y.Close.2.state = .Closed := by rw [hc]
  have hc2 : y.Close.2.Close = (.ok (), y.Close.2) := by
    generalize y.Close.2 = z at hs
    simp only [RecordYielder.Close, hs]
  have hy : ∀ choice, y.Close.2.YieldOne choice = some (.error .ClosedError, y.Close.2) := by
    intro choice
    generalize y.Close.2 = z at hs
    simp only [RecordYielder.YieldOne, hs]
  refine ⟨by rw [hc], hs, by rw [hc2], by rw [hc2], hy, ?_, ?_⟩
  · intro choice
    rw [hc2]
    exact hy choice
  · intro cs
    exact closed_calls cs y.Close.2 hs

/-- Instance of C8: a running yielder is closed and then called three more
times. -/
theorem Close_idempotent_witness :
    (RecordYielder.Close
        { opts := { file_pattern := "data-*", seed := 301, bufsize := 1,
                    file_shuffle_shift_ratio := { bits := 0 }, parallelism := 1 }
          planner := { shards := ["S1"], seed := 301, shuffle_shift_ratio := { bits := 0 } }
          state := .Running, epoch := 0, buffer := ShuffleBuffer.empty 1, workers := 1 }).2.calls
        [.YieldOne 0, .Close, .YieldOne 3]
      = some ([YielderCall.YieldOne 0, .Close, .YieldOne 3].map
                (fun c => match c with
                          | .YieldOne _ => .error .ClosedError
                          | .Close => .ok none),
              (RecordYielder.Close
                { opts := { file_pattern := "data-*", seed := 301, bufsize := 1,
                            file_shuffle_shift_ratio := { bits := 0 }, parallelism := 1 }
                  planner := { shards := ["S1"], seed := 301, shuffle_shift_ratio := { bits := 0 } }
                  state := .Running, epoch := 0, buffer := ShuffleBuffer.empty 1,
                  workers := 1 }).2) :=
  (Close_idempotent
    { opts := { file_pattern := "data-*", seed := 301, bufsize := 1,
                file_shuffle_shift_ratio := { bits := 0 }, parallelism := 1 }
      planner := { shards := ["S1"], seed := 301, shuffle_shift_ratio := { bits := 0 } }
      state := .Running, epoch := 0, buffer := ShuffleBuffer.empty 1, workers := 1 }
    rfl).2.2.2.2.2.2 [.YieldOne 0, .Close, .YieldOne 3]


end tensorflow
